import Mathlib

/-!
Verification development for the levelforge procedural level-generation core.

The definitions below are a shallow embedding, in Lean 4, of the Python
modules `semantic_grid.py`, `reachability.py`, `level_generator.py` and
`refine_region.py` of the repository.  Conventions used throughout:

* Python `int` is embedded as `Int`; byte-valued cells as `Nat` (with the
  `&&& 0xFF` masks of the source made explicit).
* Python `//` (floor division) is `Int.fdiv`; `%` on positive divisors is
  `Int.emod`; `round` on the exact rational `num/den` (`den > 0`) is
  `pyRound`, Python's round-half-to-even.  The source evaluates the corridor
  interpolation in IEEE doubles; here it is evaluated exactly.  No theorem
  below depends on an input where the double rounding of a tie differs from
  the exact rounding.
* The 32x32 cell array is embedded as a function `Int -> Int -> Nat`; every
  mutation of the Python list becomes a pointwise functional update.  The
  boolean mask arrays of the validator are embedded pointwise as well: the
  Python code fills `m[y][x]` by a loop over the index ranges, which is
  exactly the guarded pointwise definition used here.
* `random.Random(seed)` is embedded as an abstract stream family
  `R : Int -> Nat -> Nat` (seed, then draw index, to a raw draw);
  `randint a b` maps a raw draw into `[a, b]`.  The actual PRNG algorithm is
  deliberately left abstract - the repository promises only in-process
  determinism, which the stream model captures - so all theorems quantify
  over the family `R`.
* Functions that raise in Python (`generate_level` raising RuntimeError)
  return `Option`/`Except` here; out-of-bounds cell accesses, which raise
  `IndexError` in Python, are modelled as unguarded functional reads/writes
  and the theorems that need in-bounds behaviour carry the corresponding
  in-bounds hypotheses.
-/

/-- Python `range(a, b)` over integers (step 1). -/
def intRange (a b : Int) : List Int :=
  (List.range (b - a).toNat).map (fun (k : Nat) => a + (k : Int))

/-- Python `round(num / den)` for `den > 0`, evaluated exactly:
round half to even. -/
def pyRound (num den : Int) : Int :=
  let q := Int.ediv num den
  let r := num - q * den
  if 2 * r < den then q
  else if den < 2 * r then q + 1
  else if Int.emod q 2 = 0 then q else q + 1

/-- An exact fraction (positive denominator by convention), standing in
for the Python floats of the generator knobs.  The knob values and the few
products the source takes of them are represented exactly; see the header
note on floating point. -/
structure PyFloat where
  num : Int
  den : Int
deriving DecidableEq

namespace PyFloat

def ofInt (n : Int) : PyFloat := ⟨n, 1⟩

def mul (a b : PyFloat) : PyFloat := ⟨a.num * b.num, a.den * b.den⟩

def add (a b : PyFloat) : PyFloat := ⟨a.num * b.den + b.num * a.den, a.den * b.den⟩

/-- Comparison (for positive denominators). -/
def le (a b : PyFloat) : Bool := decide (a.num * b.den ≤ b.num * a.den)

def minF (a b : PyFloat) : PyFloat := if le a b then a else b

def maxF (a b : PyFloat) : PyFloat := if le a b then b else a

end PyFloat

/-- Python `round` of an exact fraction with positive denominator. -/
def pyRoundF (q : PyFloat) : Int :=
  pyRound q.num q.den

namespace Cell

def EMPTY  : Nat := 0x00
def SOLID  : Nat := 0x01
def ONEWAY : Nat := 0x02
def HAZARD : Nat := 0x04
def LADDER : Nat := 0x08
def GOAL   : Nat := 0x10
def START  : Nat := 0x20

end Cell

/-- `SemanticGrid32` from `semantic_grid.py`: a fixed 32x32 grid of byte
cells, embedded as a function from (x, y) to the stored byte.  The Python
`_cells` flat list is recovered by `SemanticGrid32.cellsList`. -/
structure SemanticGrid32 where
  cells : Int → Int → Nat

namespace SemanticGrid32

def WIDTH : Int := 32
def HEIGHT : Int := 32

/-- Fresh grid of `__init__`: all 1024 cells zero. -/
def empty : SemanticGrid32 := ⟨fun _ _ => 0⟩

/-- `get(x, y)`.  The Python method raises IndexError out of bounds; all
call sites embedded below access it in bounds (or carry the hypothesis). -/
def get (g : SemanticGrid32) (x y : Int) : Nat := g.cells x y

/-- `set(x, y, flags)`: overwrite with `flags & 0xFF`. -/
def set (g : SemanticGrid32) (x y : Int) (flags : Nat) : SemanticGrid32 :=
  ⟨fun a b => if a = x ∧ b = y then flags &&& 0xFF else g.cells a b⟩

/-- `addFlags(x, y, flags)`: OR flags in, masked to a byte. -/
def addFlags (g : SemanticGrid32) (x y : Int) (flags : Nat) : SemanticGrid32 :=
  ⟨fun a b => if a = x ∧ b = y then (g.cells a b ||| flags) &&& 0xFF else g.cells a b⟩

/-- `removeFlags(x, y, flags)`: Python `(c & ~flags) & 0xFF`, i.e. AND with
the byte complement of `flags`. -/
def removeFlags (g : SemanticGrid32) (x y : Int) (flags : Nat) : SemanticGrid32 :=
  ⟨fun a b => if a = x ∧ b = y then g.cells a b &&& (0xFF ^^^ (flags &&& 0xFF)) else g.cells a b⟩

/-- `copy()`: deep copy.  In the pure embedding a grid is already a value. -/
def copy (g : SemanticGrid32) : SemanticGrid32 := g

/-- `fill(flags)`: set every cell to `flags & 0xFF`. -/
def fill (g : SemanticGrid32) (flags : Nat) : SemanticGrid32 :=
  ⟨fun a b => if 0 ≤ a ∧ a < WIDTH ∧ 0 ≤ b ∧ b < HEIGHT then flags &&& 0xFF else g.cells a b⟩

/-- `clear()`: zero every cell. -/
def clearAll (g : SemanticGrid32) : SemanticGrid32 := g.fill 0

inductive ApplyMode | overwrite | add | remove
deriving DecidableEq

/-- One conditional write of `applyRect`: out-of-bounds cells are skipped. -/
def applyRectCell (flags : Nat) (mode : ApplyMode) (g : SemanticGrid32)
    (p : Int × Int) : SemanticGrid32 :=
  if 0 ≤ p.1 ∧ p.1 < WIDTH ∧ 0 ≤ p.2 ∧ p.2 < HEIGHT then
    match mode with
    | .overwrite => g.set p.1 p.2 flags
    | .add => g.addFlags p.1 p.2 flags
    | .remove => g.removeFlags p.1 p.2 flags
  else g

/-- `applyRect(x, y, w, h, flags, mode)`: apply to the whole rectangle,
silently clipping to the grid (row-major iteration as in the source; the
`f = flags & 0xFF` pre-masking of the source is absorbed by the masking
inside `set`/`addFlags`/`removeFlags`). -/
def applyRect (g : SemanticGrid32) (x y w h : Int) (flags : Nat)
    (mode : ApplyMode) : SemanticGrid32 :=
  ((intRange y (y + h)).flatMap fun ry => (intRange x (x + w)).map fun rx => (rx, ry)).foldl
    (applyRectCell flags mode) g

/-- The flat row-major `_cells` list (index `i` holds cell `(i % 32, i / 32)`). -/
def cellsList (g : SemanticGrid32) : List Nat :=
  (List.range 1024).map fun (i : Nat) => g.cells ((i % 32 : Nat) : Int) ((i / 32 : Nat) : Int)

/-- Grid equality of `__eq__`: byte-wise over all 1024 cells. -/
def gridEq (g1 g2 : SemanticGrid32) : Bool :=
  (List.range 32).all fun yy => (List.range 32).all fun xx =>
    g1.cells (xx : Int) (yy : Int) == g2.cells (xx : Int) (yy : Int)

end SemanticGrid32

/-- One 6-bit value to its base64-alphabet character code. -/
def b64chr (n : Nat) : Nat :=
  if n < 26 then 65 + n
  else if n < 52 then 97 + (n - 26)
  else if n < 62 then 48 + (n - 52)
  else if n = 62 then 43 else 47

/-- One base64-alphabet character code back to its 6-bit value. -/
def b64val (c : Nat) : Nat :=
  if 65 ≤ c ∧ c ≤ 90 then c - 65
  else if 97 ≤ c ∧ c ≤ 122 then c - 97 + 26
  else if 48 ≤ c ∧ c ≤ 57 then c - 48 + 52
  else if c = 43 then 62
  else if c = 47 then 63 else 0

/-- `base64.b64encode` on a byte list (61 is the code of the pad `=`). -/
def b64encode : List Nat → List Nat
  | [] => []
  | [b0] => [b64chr (b0 / 4), b64chr (b0 % 4 * 16), 61, 61]
  | [b0, b1] => [b64chr (b0 / 4), b64chr (b0 % 4 * 16 + b1 / 16), b64chr (b1 % 16 * 4), 61]
  | b0 :: b1 :: b2 :: rest =>
      b64chr (b0 / 4) :: b64chr (b0 % 4 * 16 + b1 / 16) ::
      b64chr (b1 % 16 * 4 + b2 / 64) :: b64chr (b2 % 64) :: b64encode rest

/-- `base64.b64decode` on well-formed base64 text (4-character groups, with
`=` padding only in the final group). -/
def b64decode : List Nat → List Nat
  | c0 :: c1 :: c2 :: c3 :: rest =>
      if c2 = 61 then [b64val c0 * 4 + b64val c1 / 16]
      else if c3 = 61 then
        [b64val c0 * 4 + b64val c1 / 16, b64val c1 % 16 * 16 + b64val c2 / 4]
      else
        (b64val c0 * 4 + b64val c1 / 16) :: (b64val c1 % 16 * 16 + b64val c2 / 4) ::
        (b64val c2 % 4 * 64 + b64val c3) :: b64decode rest
  | _ => []

/-- The serialized-dict shape produced by `toJSON` and consumed by
`fromJSON`: width, height, and the base64 text of the cell bytes. -/
structure SerializedGrid where
  width : Int
  height : Int
  cellsB64 : List Nat
deriving DecidableEq

namespace SemanticGrid32

/-- `toJSON()`. -/
def toJSON (g : SemanticGrid32) : SerializedGrid :=
  ⟨WIDTH, HEIGHT, b64encode g.cellsList⟩

/-- The grid a successful `fromJSON` builds: `_cells = list(raw)`. -/
def ofBytes (raw : List Nat) : SemanticGrid32 :=
  ⟨fun x y => if 0 ≤ x ∧ x < WIDTH ∧ 0 ≤ y ∧ y < HEIGHT then raw.getD (y * 32 + x).toNat 0 else 0⟩

/-- `fromJSON(data)`: `ValueError` on a dimension or size mismatch is the
`Except.error` branch. -/
def fromJSON (data : SerializedGrid) : Except String SemanticGrid32 :=
  if data.width ≠ WIDTH ∨ data.height ≠ HEIGHT then
    .error "Expected 32x32 grid"
  else
    let raw := b64decode data.cellsB64
    if raw.length ≠ 1024 then .error "Expected 1024 bytes"
    else .ok (ofBytes raw)

end SemanticGrid32

/-! ## Reachability validator (`reachability.py`) -/

/-- A player position: feet column and row. -/
abbrev Pos := Int × Int

/-- `PlayerConfig` from `reachability.py`. -/
structure PlayerConfig where
  width : Int := 1
  height : Int := 2
  max_jump_height : Int := 4
  max_jump_distance : Int := 5
  max_safe_drop : Int := 6
deriving DecidableEq

/-- `ReachabilityReport`. -/
structure ReachabilityReport where
  reachable : Bool
  path_length : Nat := 0
  jump_count : Nat := 0
  min_landing_width : Int := 0
  reasons : List String := []

/-- `_find_flag`: row-major scan for the first cell carrying `flag`. -/
def findFlag (g : SemanticGrid32) (flag : Nat) : Option Pos :=
  (((intRange 0 32).flatMap fun y => (intRange 0 32).map fun x => ((x, y) : Pos))).find?
    fun p => g.get p.1 p.2 &&& flag ≠ 0

/-- `compute_standable_mask` pointwise: the Python loop ranges over
`y in range(H-1), x in range(W)` and leaves everything else `False`. -/
def standableMask (g : SemanticGrid32) (x y : Int) : Bool :=
  if 0 ≤ x ∧ x < 32 ∧ 0 ≤ y ∧ y < 31 ∧
     g.get x (y + 1) &&& (Cell.SOLID ||| Cell.ONEWAY) ≠ 0 ∧
     g.get x y &&& (Cell.SOLID ||| Cell.HAZARD) = 0
  then true else false

/-- `compute_clearance_mask` pointwise: the body column from the feet up
must exist in-bounds and be SOLID-free. -/
def clearanceMask (cfg : PlayerConfig) (g : SemanticGrid32) (x y : Int) : Bool :=
  if 0 ≤ x ∧ x < 32 ∧ 0 ≤ y ∧ y < 32 then
    (intRange 0 cfg.height).all fun dh =>
      decide (0 ≤ y - dh) && decide (g.get x (y - dh) &&& Cell.SOLID = 0)
  else false

/-- `valid[y][x] = stand[y][x] and clear[y][x]` of `validate`. -/
def validAt (cfg : PlayerConfig) (g : SemanticGrid32) (x y : Int) : Bool :=
  standableMask g x y && clearanceMask cfg g x y

/-- `body_clear` of `_corridor_ok`: no in-bounds SOLID tile in the body
column at `(ix, iy)` (out-of-bounds body rows count as clear). -/
def bodyClear (cfg : PlayerConfig) (g : SemanticGrid32) (ix iy : Int) : Bool :=
  (intRange 0 cfg.height).all fun dh =>
    !(decide (0 ≤ iy - dh) && decide (iy - dh < 32) && decide (0 ≤ ix) &&
      decide (ix < 32) && decide (g.get ix (iy - dh) &&& Cell.SOLID ≠ 0))

/-- The column list `range(x1, x2 + step, step)` of `_corridor_ok`. -/
def corridorCols (x1 x2 : Int) : List Int :=
  if x1 ≤ x2 then intRange x1 (x2 + 1) else (intRange x2 (x1 + 1)).reverse

/-- The interpolated row `round(y1 + t * (y2 - y1))` with `t = (ix-x1)/dx`,
evaluated exactly (see the header note on `round`). -/
def corridorRow (x1 y1 x2 y2 ix : Int) : Int :=
  let num := y1 * (x2 - x1) + (ix - x1) * (y2 - y1)
  if x2 - x1 < 0 then pyRound (-num) (-(x2 - x1)) else pyRound num (x2 - x1)

/-- `_corridor_ok`: conservative linear sweep from `(x1, y1)` to `(x2, y2)`. -/
def corridorOk (cfg : PlayerConfig) (g : SemanticGrid32) (x1 y1 x2 y2 : Int) : Bool :=
  if x2 - x1 = 0 then
    (intRange (min y1 y2) (max y1 y2 + 1)).all fun cy => bodyClear cfg g x1 cy
  else
    (corridorCols x1 x2).all fun ix => bodyClear cfg g ix (corridorRow x1 y1 x2 y2 ix)

/-- `_reachable_from`: candidate neighbours in source order (dx outer,
dy inner), kept when in-bounds, valid, and corridor-clear. -/
def reachableFrom (cfg : PlayerConfig) (g : SemanticGrid32)
    (valid : Int → Int → Bool) (pos : Pos) : List Pos :=
  (intRange (-cfg.max_jump_distance) (cfg.max_jump_distance + 1)).flatMap fun dx =>
    (intRange (-cfg.max_jump_height) (cfg.max_safe_drop + 1)).filterMap fun dy =>
      if dx = 0 ∧ dy = 0 then none
      else
        let x2 := pos.1 + dx
        let y2 := pos.2 + dy
        if 0 ≤ x2 ∧ x2 < 32 ∧ 0 ≤ y2 ∧ y2 < 32 ∧ valid x2 y2 = true ∧
           corridorOk cfg g pos.1 pos.2 x2 y2 = true
        then some (x2, y2) else none

/-- `_reconstruct`: follow the parent map from `goal` back to the root and
reverse.  The fuel bounds the walk by the size of the parent map. -/
def reconstructPath (parent : List (Pos × Option Pos)) (node : Pos) :
    Nat → List Pos
  | 0 => [node]
  | fuel + 1 =>
    match (parent.find? fun e => e.1 == node).map Prod.snd with
    | some (some prev) => reconstructPath parent prev fuel ++ [node]
    | _ => [node]

/-- One round of `_bfs`: the queue and the insertion-ordered parent map.
The fuel is an upper bound on the number of dequeues; at most 1025
positions are ever enqueued (each enqueue inserts a new in-bounds key into
the parent map), so fuel 2000 never runs out on any input. -/
def bfsLoop (cfg : PlayerConfig) (g : SemanticGrid32) (valid : Int → Int → Bool)
    (goal : Pos) : List (Pos × Option Pos) → List Pos → Nat → Option (List Pos)
  | _, [], _ => none
  | _, _, 0 => none
  | parent, cur :: rest, fuel + 1 =>
    if cur = goal then some (reconstructPath parent goal parent.length)
    else
      let nxts := (reachableFrom cfg g valid cur).filter
        fun n => !(parent.any fun e => e.1 == n)
      bfsLoop cfg g valid goal (parent ++ nxts.map fun n => (n, some cur))
        (rest ++ nxts) fuel

/-- `_bfs`: breadth-first search from `start`, returning the start-first
path to `goal` if one exists. -/
def bfs (cfg : PlayerConfig) (g : SemanticGrid32) (valid : Int → Int → Bool)
    (start goal : Pos) : Option (List Pos) :=
  bfsLoop cfg g valid goal [(start, none)] [start] 2000

/-- `_count_jumps`: moves with a row change or a column step larger than 1. -/
def countJumps : List Pos → Nat
  | p1 :: p2 :: rest =>
      (if p2.2 ≠ p1.2 ∨ 1 < (p2.1 - p1.1).natAbs then 1 else 0) + countJumps (p2 :: rest)
  | _ => 0

/-- The `while lo > 0 and row[lo - 1]` expansion of `_min_landing_width`. -/
def runLo (valid : Int → Int → Bool) (y : Int) : Nat → Int → Int
  | 0, lo => lo
  | fuel + 1, lo => if 0 < lo ∧ valid (lo - 1) y = true then runLo valid y fuel (lo - 1) else lo

/-- The `while hi < W - 1 and row[hi + 1]` expansion of `_min_landing_width`. -/
def runHi (valid : Int → Int → Bool) (y : Int) : Nat → Int → Int
  | 0, hi => hi
  | fuel + 1, hi => if hi < 31 ∧ valid (hi + 1) y = true then runHi valid y fuel (hi + 1) else hi

/-- `_min_landing_width`: minimum horizontal run of valid cells at the rows
of the path nodes. -/
def minLandingWidth (valid : Int → Int → Bool) (path : List Pos) : Int :=
  path.foldl (fun acc p => min acc (runHi valid p.2 32 p.1 - runLo valid p.2 32 p.1 + 1)) 32

/-- The reachable-set BFS of `_diagnose` (only its size feeds the report
text; the messages themselves are kept abstract). -/
def diagnoseVisit (cfg : PlayerConfig) (g : SemanticGrid32)
    (valid : Int → Int → Bool) : List Pos → List Pos → Nat → List Pos
  | visited, [], _ => visited
  | visited, _, 0 => visited
  | visited, cur :: rest, fuel + 1 =>
      let nxts := (reachableFrom cfg g valid cur).filter
        fun n => !(visited.any fun v => v == n)
      diagnoseVisit cfg g valid (visited ++ nxts) (rest ++ nxts) fuel

/-- `_diagnose`: unreachable-case messages (string payloads abbreviated;
no claim inspects them). -/
def diagnose (cfg : PlayerConfig) (g : SemanticGrid32) (valid : Int → Int → Bool)
    (start goal : Pos) : List String :=
  let visited := diagnoseVisit cfg g valid [start] [start] 2000
  let base := ["GOAL unreachable from START",
               toString visited.length ++ " valid position(s) reachable from START"]
  let m1 := if cfg.max_jump_distance < (goal.1 - start.1).natAbs then
              ["Horizontal gap exceeds max_jump_distance"] else []
  let m2 := if cfg.max_jump_height < start.2 - goal.2 then
              ["Height gain exceeds max_jump_height"] else []
  let m3 := if cfg.max_safe_drop < goal.2 - start.2 then
              ["Drop exceeds max_safe_drop"] else []
  base ++ m1 ++ m2 ++ m3

/-- `ReachabilityValidator.validate`. -/
def validate (cfg : PlayerConfig) (g : SemanticGrid32)
    (start0 goal0 : Option Pos) : ReachabilityReport :=
  let start := match start0 with
    | some p => some p
    | none => findFlag g Cell.START
  let goal := match goal0 with
    | some p => some p
    | none => findFlag g Cell.GOAL
  match start, goal with
  | none, none =>
      { reachable := false,
        reasons := ["No START marker found in grid", "No GOAL marker found in grid"] }
  | none, some _ => { reachable := false, reasons := ["No START marker found in grid"] }
  | some _, none => { reachable := false, reasons := ["No GOAL marker found in grid"] }
  | some s, some gl =>
      let reasons :=
        (if validAt cfg g s.1 s.2 = false then ["START is not a valid standing position"] else []) ++
        (if validAt cfg g gl.1 gl.2 = false then ["GOAL is not a valid standing position"] else [])
      if reasons ≠ [] then { reachable := false, reasons := reasons }
      else
        match bfs cfg g (validAt cfg g) s gl with
        | none => { reachable := false, reasons := diagnose cfg g (validAt cfg g) s gl }
        | some path =>
            { reachable := true,
              path_length := path.length,
              jump_count := countJumps path,
              min_landing_width := minLandingWidth (validAt cfg g) path }

/-! ## Level generator (`level_generator.py`) -/

def W : Int := SemanticGrid32.WIDTH
def H : Int := SemanticGrid32.HEIGHT
def PLAYER_HEIGHT : Int := 2
def MAX_RETRIES : Nat := 40
def MAX_STEP_TRIES : Nat := 50
def GOAL_X_MIN : Int := 26

/-- `Foothold(x, y, width)`. -/
structure Foothold where
  x : Int
  y : Int
  width : Int
deriving DecidableEq

namespace Foothold

/-- `surface_y`: the row of the SOLID surface tile. -/
def surfaceY (fh : Foothold) : Int := fh.y + 1

/-- `right`: rightmost column (inclusive). -/
def rightCol (fh : Foothold) : Int := fh.x + fh.width - 1

/-- `x_cols()`: `range(x, x + width)`. -/
def xCols (fh : Foothold) : List Int := intRange fh.x (fh.x + fh.width)

/-- `clearance_rows()`: `range(y - PLAYER_HEIGHT + 1, y + 1)`. -/
def clearanceRows (fh : Foothold) : List Int :=
  intRange (fh.y - PLAYER_HEIGHT + 1) (fh.y + 1)

/-- The `.start` of the Python `clearance_rows()` range object. -/
def clearLo (fh : Foothold) : Int := fh.y - PLAYER_HEIGHT + 1

/-- The `.stop - 1` of the Python `clearance_rows()` range object. -/
def clearHi (fh : Foothold) : Int := fh.y

end Foothold

/-- `MovementSpec`. -/
structure MovementSpec where
  max_jump_height : Int := 4
  max_jump_distance : Int := 5
  max_safe_drop : Int := 6
deriving DecidableEq

/-- `GeneratorKnobs` (the two float knobs are embedded as exact fractions:
0.5 and 0.3 are the defaults of the source). -/
structure GeneratorKnobs where
  target_foothold_count : Int := 8
  min_foothold_width : Int := 2
  max_foothold_width : Int := 6
  verticality : PyFloat := ⟨1, 2⟩
  difficulty : PyFloat := ⟨3, 10⟩

/-- `GenerationResult`. -/
structure GenerationResult where
  grid : SemanticGrid32
  footholds : List Foothold
  report : ReachabilityReport
  seed_used : Int
  attempts : Nat

/-- `_min_dx_for_progress`: the ceiling division `-(-needed // steps)`. -/
def minDxForProgress (current_x steps_remaining target_x max_dx : Int) : Int :=
  let needed := target_x - current_x
  if needed ≤ 0 ∨ steps_remaining ≤ 0 then 1
  else max 1 (min max_dx (-(Int.fdiv (-needed) steps_remaining)))

/-- The per-pair body of `_clearance_ok`: `False` on a column overlap with
a surface row inside the other foothold's clearance band. -/
def clearanceOkPair (fh nf : Foothold) : Bool :=
  if !(nf.xCols.any fun c => fh.xCols.contains c) then true
  else if fh.clearLo ≤ nf.surfaceY ∧ nf.surfaceY ≤ fh.clearHi then false
  else if nf.clearLo ≤ fh.surfaceY ∧ fh.surfaceY ≤ nf.clearHi then false
  else true

/-- `_clearance_ok(existing, new_fh)`. -/
def clearanceOk (existing : List Foothold) (nf : Foothold) : Bool :=
  existing.all fun fh => clearanceOkPair fh nf

/-- A raw-draw stream of one `random.Random(seed)` instance. -/
abbrev RandStream := Nat → Nat

/-- A family of streams, one per seed: the abstract PRNG model. -/
abbrev RandFamily := Int → RandStream

/-- `rng.randint(a, b)` on the stream: the draw at the current index is
reduced into `[a, b]`, and the index advances.  (For `a > b` Python raises
ValueError; the model returns `a` there, and no theorem relies on that
branch.) -/
def randint (s : RandStream) (i : Nat) (a b : Int) : Int × Nat :=
  (if a ≤ b then a + Int.emod (Int.ofNat (s i)) (b - a + 1) else a, i + 1)

/-- The disjunction of the five `continue` guards of step 3 of
`_generate_footholds` (all five `continue` statements jump to the same
next loop iteration, so their sequence is their disjunction). -/
def candidateRejected (fhs : List Foothold) (isLast : Bool) (cand : Foothold) : Bool :=
  decide (cand.x < 1) || decide (W - 2 < cand.x + cand.width - 1) ||
  decide (cand.y < PLAYER_HEIGHT) || decide (H - 2 < cand.y + 1) ||
  (isLast && decide (cand.x < GOAL_X_MIN)) ||
  !(clearanceOk fhs cand)

/-- One candidate round of step 3 of `_generate_footholds` (the
`for _ in range(MAX_STEP_TRIES)` loop, fuelled by its iteration count). -/
def stepTry (s : RandStream) (knobs : GeneratorKnobs) (spec : MovementSpec)
    (fhs : List Foothold) (prev : Foothold) (isLast : Bool)
    (min_dx max_up max_down eff_max_w : Int) :
    Nat → Nat → Option (Foothold × Nat)
  | _, 0 => none
  | i, fuel + 1 =>
    let r1 := randint s i min_dx spec.max_jump_distance
    let r2 := if 0 < max_up + max_down then randint s r1.2 (-max_up) max_down else (0, r1.2)
    let r3 := randint s r2.2 knobs.min_foothold_width eff_max_w
    let cand : Foothold := ⟨prev.x + r1.1, prev.y + r2.1, r3.1⟩
    if candidateRejected fhs isLast cand then
      stepTry s knobs spec fhs prev isLast min_dx max_up max_down eff_max_w r3.2 fuel
    else some (cand, r3.2)

/-- `diff_min` of step 3: `round(max_jump_distance * 0.25 * difficulty)`. -/
def diffMin (knobs : GeneratorKnobs) (spec : MovementSpec) : Int :=
  pyRoundF (((PyFloat.ofInt spec.max_jump_distance).mul ⟨1, 4⟩).mul knobs.difficulty)

/-- `max_up` of step 3: `max(0, round(max_jump_height * verticality))`. -/
def maxUpOf (knobs : GeneratorKnobs) (spec : MovementSpec) : Int :=
  max 0 (pyRoundF ((PyFloat.ofInt spec.max_jump_height).mul knobs.verticality))

/-- `max_down` of step 3: `max(0, round(max_safe_drop * verticality))`. -/
def maxDownOf (knobs : GeneratorKnobs) (spec : MovementSpec) : Int :=
  max 0 (pyRoundF ((PyFloat.ofInt spec.max_safe_drop).mul knobs.verticality))

/-- `eff_max_w` of step 3: difficulty narrows the maximum width. -/
def effMaxW (knobs : GeneratorKnobs) : Int :=
  max knobs.min_foothold_width
    (knobs.max_foothold_width -
      pyRoundF (knobs.difficulty.mul
        (PyFloat.ofInt (knobs.max_foothold_width - knobs.min_foothold_width))))

/-- The `for i in range(1, N)` loop of `_generate_footholds`, iterating
over the remaining index list. -/
def buildFoots (s : RandStream) (knobs : GeneratorKnobs) (spec : MovementSpec)
    (N : Int) : List Int → List Foothold → Nat → Option (List Foothold)
  | [], fhs, _ => some fhs
  | ii :: rest, fhs, i =>
    match fhs.getLast? with
    | none => none
    | some prev =>
      let prog_min := minDxForProgress prev.x (N - ii) GOAL_X_MIN spec.max_jump_distance
      let min_dx := min (max prog_min (max (diffMin knobs spec) 1)) spec.max_jump_distance
      match stepTry s knobs spec fhs prev (ii = N - 1) min_dx (maxUpOf knobs spec)
          (maxDownOf knobs spec) (effMaxW knobs) i MAX_STEP_TRIES with
      | none => none
      | some (fh, i2) => buildFoots s knobs spec N rest (fhs ++ [fh]) i2

/-- `_generate_footholds(rng, knobs, spec)`. -/
def genFootholds (s : RandStream) (knobs : GeneratorKnobs) (spec : MovementSpec) :
    Option (List Foothold) :=
  let mid_y := Int.fdiv H 2
  let y_lo := max PLAYER_HEIGHT (mid_y - 5)
  let y_hi := min (H - 3) (mid_y + 5)
  let r1 := randint s 0 y_lo y_hi
  let r2 := randint s r1.2 2 5
  let r3 := randint s r2.2 knobs.min_foothold_width knobs.max_foothold_width
  let first_w := max knobs.min_foothold_width (min r3.1 (W - 2 - r2.1))
  buildFoots s knobs spec knobs.target_foothold_count
    (intRange 1 knobs.target_foothold_count) [⟨r2.1, r1.1, first_w⟩] r3.2

/-- Phase 2 inner write of `footholds_to_grid`: OR SOLID into an in-bounds
surface cell and record it. -/
def surfaceStep (fh : Foothold) (acc : SemanticGrid32 × List (Int × Int)) (x : Int) :
    SemanticGrid32 × List (Int × Int) :=
  if 0 ≤ x ∧ x < W ∧ 0 ≤ fh.surfaceY ∧ fh.surfaceY < H then
    (acc.1.addFlags x fh.surfaceY Cell.SOLID, acc.2 ++ [(x, fh.surfaceY)])
  else acc

/-- Phase 2 of `footholds_to_grid`: paint all surfaces, recording them. -/
def paintSurfacesGen (fhs : List Foothold) (g : SemanticGrid32) :
    SemanticGrid32 × List (Int × Int) :=
  fhs.foldl (fun acc fh => fh.xCols.foldl (surfaceStep fh) acc) (g, [])

/-- Phase 3 inner write of `footholds_to_grid`: clear SOLID from an
in-row-bounds clearance cell unless it is a recorded surface. -/
def clearanceStep (surf : List (Int × Int)) (g : SemanticGrid32) (p : Int × Int) :
    SemanticGrid32 :=
  if 0 ≤ p.2 ∧ p.2 < H ∧ !(surf.contains p) then g.removeFlags p.1 p.2 Cell.SOLID else g

/-- Phase 3 of `footholds_to_grid`. -/
def clearFootholds (fhs : List Foothold) (surf : List (Int × Int))
    (g : SemanticGrid32) : SemanticGrid32 :=
  fhs.foldl
    (fun g2 fh =>
      (fh.xCols.flatMap fun x => fh.clearanceRows.map fun r => (x, r)).foldl
        (clearanceStep surf) g2) g

/-- `footholds_to_grid(footholds)`: safety floor, surfaces, clearances,
then START and GOAL markers (its `player_height` parameter is unused by
the source body, which reads the module constant). -/
def footholds_to_grid (fhs : List Foothold) : SemanticGrid32 :=
  let g1 := SemanticGrid32.empty.applyRect 0 (H - 1) W 1 Cell.SOLID .overwrite
  let pr := paintSurfacesGen fhs g1
  let g3 := clearFootholds fhs pr.2 pr.1
  match fhs.head?, fhs.getLast? with
  | some first, some last =>
      (g3.set (first.x + Int.fdiv first.width 2) first.y Cell.START).set
        (last.x + Int.fdiv last.width 2) last.y Cell.GOAL
  | _, _ => g3

/-- The `PlayerConfig(...)` built by `generate_level` (and `refine_region`). -/
def cfgOfSpec (spec : MovementSpec) : PlayerConfig :=
  { height := PLAYER_HEIGHT,
    max_jump_height := spec.max_jump_height,
    max_jump_distance := spec.max_jump_distance,
    max_safe_drop := spec.max_safe_drop }

/-- The `for attempt in range(MAX_RETRIES)` loop of `generate_level`. -/
def genLoop (R : RandFamily) (seed : Int) (knobs : GeneratorKnobs)
    (spec : MovementSpec) : List Nat → Option GenerationResult
  | [] => none
  | attempt :: rest =>
    match genFootholds (R (seed + attempt)) knobs spec with
    | none => genLoop R seed knobs spec rest
    | some fhs =>
      let grid := footholds_to_grid fhs
      let report := validate (cfgOfSpec spec) grid none none
      if report.reachable then
        some ⟨grid, fhs, report, seed + attempt, attempt + 1⟩
      else genLoop R seed knobs spec rest

/-- `generate_level(seed, knobs, spec)`: `none` is the RuntimeError raised
after all 40 attempts fail. -/
def generate_level (R : RandFamily) (seed : Int) (knobs : GeneratorKnobs)
    (spec : MovementSpec) : Option GenerationResult :=
  genLoop R seed knobs spec (List.range MAX_RETRIES)

/-! ## Region refiner (`refine_region.py`) -/

def MAX_INNER_RETRIES : Nat := 30

/-- `RefineRect(x, y, w, h)`. -/
structure RefineRect where
  x : Int
  y : Int
  w : Int
  h : Int
deriving DecidableEq

namespace RefineRect

/-- `right`: rightmost column, inclusive. -/
def rightCol (r : RefineRect) : Int := r.x + r.w - 1

/-- `bottom`: bottom row, inclusive. -/
def bottom (r : RefineRect) : Int := r.y + r.h - 1

/-- `contains(cx, cy)`. -/
def containsB (r : RefineRect) (cx cy : Int) : Bool :=
  decide (r.x ≤ cx) && decide (cx ≤ r.rightCol) && decide (r.y ≤ cy) && decide (cy ≤ r.bottom)

end RefineRect

/-- `RefineRequest` (the float deltas embedded as exact fractions). -/
structure RefineRequest where
  difficulty_delta : PyFloat := ⟨0, 1⟩
  verticality_delta : PyFloat := ⟨0, 1⟩
  add_secret : Bool := false
  smooth_silhouette : Bool := false

/-- `RefineReport`. -/
structure RefineReport where
  success : Bool
  seam_entry : Option Pos := none
  seam_exit : Option Pos := none
  inner_footholds : Nat := 0
  reachability : Option ReachabilityReport := none
  reasons : List String := []

/-- `_linear_corridor_ok`: the simplified corridor sweep of the refiner
(`round` evaluated exactly, see the header note). -/
def linearCorridorOk (g : SemanticGrid32) (x1 y1 x2 y2 ph : Int) : Bool :=
  let dx := x2 - x1
  let dy := y2 - y1
  let steps : Int := max (dx.natAbs : Int) 1
  (intRange 1 (steps + 1)).all fun step =>
    let cx := x1 + pyRound (dx * step) steps
    let cy := y1 + pyRound (dy * step) steps
    (intRange (cy - ph + 1) (cy + 1)).all fun row =>
      !(decide (0 ≤ cx) && decide (cx < W) && decide (0 ≤ row) && decide (row < H) &&
        decide (g.get cx row &&& Cell.SOLID ≠ 0))

/-- The loop of `_bfs_reachable` (fuelled like `bfsLoop`; at most 1025
positions are ever enqueued, so fuel 2000 never runs out). -/
def bfsReachLoop (g : SemanticGrid32) (valid : Int → Int → Bool)
    (spec : MovementSpec) : List Pos → List Pos → Nat → List Pos
  | visited, [], _ => visited
  | visited, _, 0 => visited
  | visited, cur :: rest, fuel + 1 =>
    let nxts := (intRange (-spec.max_jump_distance) (spec.max_jump_distance + 1)).flatMap
      fun dx => (intRange (-spec.max_jump_height) (spec.max_safe_drop + 1)).filterMap
        fun dy =>
          if dx = 0 ∧ dy = 0 then none
          else
            let pos : Pos := (cur.1 + dx, cur.2 + dy)
            if visited.contains pos ∨ valid pos.1 pos.2 = false then none
            else if linearCorridorOk g cur.1 cur.2 pos.1 pos.2 PLAYER_HEIGHT then some pos
            else none
    bfsReachLoop g valid spec (visited ++ nxts) (rest ++ nxts) fuel

/-- `_bfs_reachable(grid, valid, start, spec)`. -/
def bfsReachable (g : SemanticGrid32) (valid : Int → Int → Bool) (start : Pos)
    (spec : MovementSpec) : List Pos :=
  bfsReachLoop g valid spec [start] [start] 2000

/-- Python `min(cands, key=lambda p: abs(p[1] - mid))`: first minimum in
iteration order. -/
def pickMinByAbs (mid : Int) : List Pos → Option Pos
  | [] => none
  | p :: rest =>
      some (rest.foldl (fun best q =>
        if (q.2 - mid).natAbs < (best.2 - mid).natAbs then q else best) p)

/-- First-occurrence deduplication (the `set(...)` of the seam fallback;
CPython's set iteration order is implementation-defined, so ties in the
subsequent `sorted(..., key=x)` are resolved here by first occurrence - no
theorem below depends on the tie order). -/
def dedupFirst (l : List Pos) : List Pos :=
  l.foldl (fun acc p => if acc.contains p then acc else acc ++ [p]) []

/-- Stable insertion by column (`sorted(..., key=lambda p: p[0])`). -/
def insertByX (p : Pos) : List Pos → List Pos
  | [] => [p]
  | q :: rest => if q.1 ≤ p.1 then q :: insertByX p rest else p :: q :: rest

/-- Stable sort by column. -/
def sortByX (l : List Pos) : List Pos := l.foldr insertByX []

/-- `_find_seams(grid, rect, validator, spec)`. -/
def findSeams (g : SemanticGrid32) (rect : RefineRect) (cfg : PlayerConfig)
    (spec : MovementSpec) : Option Pos × Option Pos :=
  let valid := validAt cfg g
  match findFlag g Cell.START with
  | none => (none, none)
  | some start =>
    if valid start.1 start.2 = false then (none, none)
    else
      let reachable := bfsReachable g valid start spec
      let mid_y := Int.fdiv (rect.y + rect.bottom) 2
      let left_cands := (intRange rect.y (rect.bottom + 1)).filterMap fun gy =>
        if reachable.contains ((rect.x, gy) : Pos) then some ((rect.x, gy) : Pos) else none
      let right_cands := (intRange rect.y (rect.bottom + 1)).filterMap fun gy =>
        if reachable.contains ((rect.rightCol, gy) : Pos) then some ((rect.rightCol, gy) : Pos)
        else none
      let e0 := pickMinByAbs mid_y left_cands
      let x0 := pickMinByAbs mid_y right_cands
      if e0.isNone ∨ x0.isNone then
        let top_bot := [rect.y, rect.bottom].flatMap fun gy =>
          (intRange rect.x (rect.rightCol + 1)).filterMap fun gx =>
            if reachable.contains ((gx, gy) : Pos) then some ((gx, gy) : Pos) else none
        let all_cands := sortByX (dedupFirst (left_cands ++ right_cands ++ top_bot))
        match all_cands.head?, all_cands.getLast? with
        | some c0, some cN =>
            ((if e0.isNone then some c0 else e0), (if x0.isNone then some cN else x0))
        | _, _ => (e0, x0)
      else (e0, x0)

/-- `_apply_deltas(base, req)`. -/
def applyDeltas (base : GeneratorKnobs) (req : RefineRequest) : GeneratorKnobs :=
  { base with
    verticality := (PyFloat.ofInt 0).maxF
      ((PyFloat.ofInt 1).minF (base.verticality.add req.verticality_delta)),
    difficulty := (PyFloat.ofInt 0).maxF
      ((PyFloat.ofInt 1).minF (base.difficulty.add req.difficulty_delta)) }

/-- The disjunction of the four `continue` guards of the
intermediate-foothold loop of `_generate_inner_footholds`. -/
def innerRejected (rect : RefineRect) (fhs : List Foothold) (cand : Foothold) : Bool :=
  decide (cand.x < rect.x) || decide (rect.rightCol < cand.x + cand.width - 1) ||
  decide (cand.y < rect.y + PLAYER_HEIGHT) || decide (rect.bottom < cand.y + 1) ||
  !(clearanceOk fhs cand)

/-- One candidate round of the intermediate-foothold loop of
`_generate_inner_footholds` (its `break` when even the minimum step would
overshoot the exit aborts the whole chain). -/
def innerStepTry (s : RandStream) (knobs : GeneratorKnobs) (spec : MovementSpec)
    (rect : RefineRect) (fhs : List Foothold) (prev : Foothold)
    (target_x min_dx max_up max_down eff_max_w : Int) :
    Nat → Nat → Option (Foothold × Nat)
  | _, 0 => none
  | i, fuel + 1 =>
    let max_dx := min spec.max_jump_distance (target_x - prev.x - 1)
    if max_dx < min_dx then none
    else
      let r1 := randint s i min_dx max_dx
      let r2 := if 0 < max_up + max_down then randint s r1.2 (-max_up) max_down else (0, r1.2)
      let r3 := randint s r2.2 knobs.min_foothold_width eff_max_w
      let cand : Foothold := ⟨prev.x + r1.1, prev.y + r2.1, r3.1⟩
      if innerRejected rect fhs cand then
        innerStepTry s knobs spec rect fhs prev target_x min_dx max_up max_down eff_max_w r3.2 fuel
      else some (cand, r3.2)

/-- The `for step in range(n_inter)` loop of `_generate_inner_footholds`. -/
def innerLoop (s : RandStream) (knobs : GeneratorKnobs) (spec : MovementSpec)
    (rect : RefineRect) (target_x n_inter : Int) :
    List Int → List Foothold → Nat → Option (List Foothold × Nat)
  | [], fhs, i => some (fhs, i)
  | step :: rest, fhs, i =>
    match fhs.getLast? with
    | none => none
    | some prev =>
      let steps_left := n_inter - step + 1
      let prog_min := minDxForProgress prev.x steps_left target_x spec.max_jump_distance
      let min_dx := min (max prog_min (max (diffMin knobs spec) 1)) spec.max_jump_distance
      match innerStepTry s knobs spec rect fhs prev target_x min_dx (maxUpOf knobs spec)
          (maxDownOf knobs spec) (effMaxW knobs) i MAX_STEP_TRIES with
      | none => none
      | some (fh, i2) => innerLoop s knobs spec rect target_x n_inter rest (fhs ++ [fh]) i2

/-- `_generate_inner_footholds(rng, knobs, spec, rect, entry, exit_point)`. -/
def genInner (s : RandStream) (knobs : GeneratorKnobs) (spec : MovementSpec)
    (rect : RefineRect) (entry exitP : Pos) (i0 : Nat) :
    Option (List Foothold × Nat) :=
  let dx_total := exitP.1 - entry.1
  if dx_total ≤ 0 then none
  else
    let avg_hop := max 1 (Int.fdiv (spec.max_jump_distance + 1) 2)
    let n_inter := max 0 (min 6 (Int.fdiv dx_total avg_hop - 1))
    let re := randint s i0 knobs.min_foothold_width knobs.max_foothold_width
    let e_w := min (max knobs.min_foothold_width re.1) (rect.rightCol - entry.1 + 1)
    match innerLoop s knobs spec rect exitP.1 n_inter (intRange 0 n_inter)
        [⟨entry.1, entry.2, e_w⟩] re.2 with
    | none => none
    | some (fhs, i1) =>
      match fhs.getLast? with
      | none => none
      | some last =>
        let rx := randint s i1 knobs.min_foothold_width knobs.max_foothold_width
        let x_w0 := min (max knobs.min_foothold_width rx.1) (exitP.1 - rect.x + 1)
        let x_w := max 1 x_w0
        let exit_x := exitP.1 - x_w + 1
        let dy_to_exit := exitP.2 - last.y
        let min_jump_dx := max 0 (exit_x - (last.x + last.width - 1))
        if spec.max_jump_distance < min_jump_dx then none
        else if spec.max_safe_drop < dy_to_exit then none
        else if dy_to_exit < -spec.max_jump_height then none
        else
          let exit_fh : Foothold := ⟨exit_x, exitP.2, x_w⟩
          if clearanceOk fhs exit_fh = false then none
          else some (fhs ++ [exit_fh], rx.2)

/-- The cell list of a `RefineRect` interior (all four sides inclusive),
in the iteration order of `_clear_rect`. -/
def rectCells (rect : RefineRect) : List (Int × Int) :=
  (intRange rect.y (rect.bottom + 1)).flatMap fun ry =>
    (intRange rect.x (rect.rightCol + 1)).map fun rx => (rx, ry)

/-- `_clear_rect(grid, rect)`. -/
def clearRect (g : SemanticGrid32) (rect : RefineRect) : SemanticGrid32 :=
  (rectCells rect).foldl (fun g2 p => g2.set p.1 p.2 Cell.EMPTY) g

/-- Phase 1 write of `_paint_inner_footholds`: surfaces clipped to `rect`. -/
def innerSurfaceStep (rect : RefineRect) (fh : Foothold)
    (acc : SemanticGrid32 × List (Int × Int)) (fx : Int) :
    SemanticGrid32 × List (Int × Int) :=
  if rect.x ≤ fx ∧ fx ≤ rect.rightCol ∧ rect.y ≤ fh.surfaceY ∧ fh.surfaceY ≤ rect.bottom then
    (acc.1.addFlags fx fh.surfaceY Cell.SOLID, acc.2 ++ [(fx, fh.surfaceY)])
  else acc

/-- Phase 2 write of `_paint_inner_footholds`: clearance clipped to `rect`,
skipping recorded surfaces. -/
def innerClearStep (rect : RefineRect) (surf : List (Int × Int))
    (g : SemanticGrid32) (p : Int × Int) : SemanticGrid32 :=
  if rect.x ≤ p.1 ∧ p.1 ≤ rect.rightCol ∧ rect.y ≤ p.2 ∧ p.2 ≤ rect.bottom ∧
     !(surf.contains p)
  then g.removeFlags p.1 p.2 Cell.SOLID else g

/-- `_paint_inner_footholds(grid, footholds, rect)`. -/
def paintInnerFootholds (g : SemanticGrid32) (fhs : List Foothold)
    (rect : RefineRect) : SemanticGrid32 :=
  let pr := fhs.foldl (fun acc fh => fh.xCols.foldl (innerSurfaceStep rect fh) acc) (g, [])
  fhs.foldl
    (fun g2 fh =>
      (fh.xCols.flatMap fun x => fh.clearanceRows.map fun r => (x, r)).foldl
        (innerClearStep rect pr.2) g2) pr.1

/-- One column of `_smooth_silhouette` (the loop reads the grid it is
mutating, so the fold threads the evolving grid). -/
def smoothStep (rect : RefineRect) (g : SemanticGrid32) (fx : Int) : SemanticGrid32 :=
  if g.get fx rect.y &&& Cell.SOLID = 0 then g
  else
    let leftS := decide (rect.x < fx) && decide (g.get (fx - 1) rect.y &&& Cell.SOLID ≠ 0)
    let rightS := decide (fx < rect.rightCol) && decide (g.get (fx + 1) rect.y &&& Cell.SOLID ≠ 0)
    if !leftS && !rightS then g.removeFlags fx rect.y Cell.SOLID else g

/-- `_smooth_silhouette(grid, rect)`. -/
def smoothSilhouette (g : SemanticGrid32) (rect : RefineRect) : SemanticGrid32 :=
  (intRange rect.x (rect.rightCol + 1)).foldl (smoothStep rect) g

/-- The paint-and-clear of a successfully placed secret platform. -/
def paintSecret (g : SemanticGrid32) (secret : Foothold) (rect : RefineRect) :
    SemanticGrid32 :=
  let g1 := secret.xCols.foldl
    (fun g2 fx =>
      if rect.x ≤ fx ∧ fx ≤ rect.rightCol ∧ rect.y ≤ secret.surfaceY ∧
         secret.surfaceY ≤ rect.bottom
      then g2.addFlags fx secret.surfaceY Cell.SOLID else g2) g
  (secret.xCols.flatMap fun fx => secret.clearanceRows.map fun r => (fx, r)).foldl
    (fun g2 p =>
      if rect.x ≤ p.1 ∧ p.1 ≤ rect.rightCol ∧ rect.y ≤ p.2 ∧ p.2 ≤ rect.bottom
      then g2.removeFlags p.1 p.2 Cell.SOLID else g2) g1

/-- The `for _ in range(20)` placement loop of `_add_secret`. -/
def secretTry (s : RandStream) (fhs : List Foothold) (rect : RefineRect)
    (base : Foothold) (g : SemanticGrid32) : Nat → Nat → SemanticGrid32 × Nat
  | i, 0 => (g, i)
  | i, fuel + 1 =>
    let r1 := randint s i (-1) 1
    let r2 := randint s r1.2 3 5
    let r3 := randint s r2.2 2 3
    let sx := base.x + r1.1
    let sy := base.y - r2.1
    let sw := r3.1
    if sx < rect.x ∨ rect.rightCol < sx + sw - 1 then
      secretTry s fhs rect base g r3.2 fuel
    else if sy < rect.y + PLAYER_HEIGHT ∨ rect.bottom < sy + 1 then
      secretTry s fhs rect base g r3.2 fuel
    else if clearanceOk fhs ⟨sx, sy, sw⟩ = false then
      secretTry s fhs rect base g r3.2 fuel
    else (paintSecret g ⟨sx, sy, sw⟩ rect, r3.2)

/-- `_add_secret(grid, footholds, rect, rng)`. -/
def addSecret (s : RandStream) (i : Nat) (g : SemanticGrid32)
    (fhs : List Foothold) (rect : RefineRect) : SemanticGrid32 × Nat :=
  match fhs with
  | [] => (g, i)
  | _ =>
    let r0 := randint s i 0 ((fhs.length : Int) - 1)
    secretTry s fhs rect (fhs.getD r0.1.toNat ⟨0, 0, 0⟩) g r0.2 20

/-- Steps 5.2-5.6 of one `refine_region` attempt: clear the rect on a
copy of the original, paint the inner footholds, re-place START/GOAL when
they were inside the rect, then the optional secret and silhouette
mutations. -/
def refineAttemptGrid (g : SemanticGrid32) (rect : RefineRect)
    (request : RefineRequest) (s : RandStream) (inner_fhs : List Foothold)
    (i : Nat) (start_inside goal_inside : Bool) : SemanticGrid32 :=
  let g1 := clearRect g.copy rect
  let g2 := paintInnerFootholds g1 inner_fhs rect
  let g3 := if start_inside then
      match inner_fhs.head? with
      | some fh => g2.set (fh.x + Int.fdiv fh.width 2) fh.y Cell.START
      | none => g2
    else g2
  let g4 := if goal_inside then
      match inner_fhs.getLast? with
      | some fh => g3.set (fh.x + Int.fdiv fh.width 2) fh.y Cell.GOAL
      | none => g3
    else g3
  let g5i := if request.add_secret then addSecret s i g4 inner_fhs rect else (g4, i)
  if request.smooth_silhouette then smoothSilhouette g5i.1 rect else g5i.1

/-- The `for attempt in range(MAX_INNER_RETRIES)` loop of `refine_region`. -/
def refineLoop (R : RandFamily) (g : SemanticGrid32) (rect : RefineRect)
    (request : RefineRequest) (seed : Int) (inner_knobs : GeneratorKnobs)
    (spec : MovementSpec) (cfg : PlayerConfig) (seamE seamX : Pos)
    (start_inside goal_inside : Bool) (orig_report : ReachabilityReport) :
    List Nat → SemanticGrid32 × RefineReport
  | [] =>
    (g.copy,
     { success := false, seam_entry := some seamE, seam_exit := some seamX,
       reachability := some orig_report,
       reasons := ["All 30 refinement attempts failed"] })
  | attempt :: rest =>
    let s := R (seed + attempt)
    match genInner s inner_knobs spec rect seamE seamX 0 with
    | none =>
        refineLoop R g rect request seed inner_knobs spec cfg seamE seamX
          start_inside goal_inside orig_report rest
    | some (inner_fhs, i) =>
      let g6 := refineAttemptGrid g rect request s inner_fhs i start_inside goal_inside
      let report := validate cfg g6 none none
      if report.reachable then
        (g6,
         { success := true, seam_entry := some seamE, seam_exit := some seamX,
           inner_footholds := inner_fhs.length, reachability := some report })
      else
        refineLoop R g rect request seed inner_knobs spec cfg seamE seamX
          start_inside goal_inside orig_report rest

/-- Whether the original START marker lies inside the rect (step 4 of
`refine_region`). -/
def startInside (g : SemanticGrid32) (rect : RefineRect) : Bool :=
  match findFlag g Cell.START with
  | some p => rect.containsB p.1 p.2
  | none => false

/-- Whether the original GOAL marker lies inside the rect. -/
def goalInside (g : SemanticGrid32) (rect : RefineRect) : Bool :=
  match findFlag g Cell.GOAL with
  | some p => rect.containsB p.1 p.2
  | none => false

/-- `refine_region(grid, rect, request, seed, knobs, spec)`. -/
def refine_region (R : RandFamily) (g : SemanticGrid32) (rect : RefineRect)
    (request : RefineRequest) (seed : Int) (knobs : GeneratorKnobs)
    (spec : MovementSpec) : SemanticGrid32 × RefineReport :=
  let cfg := cfgOfSpec spec
  let orig_report := validate cfg g none none
  if orig_report.reachable = false then
    (g.copy,
     { success := false, reasons := ["Original grid is not reachable"],
       reachability := some orig_report })
  else
    match findSeams g rect cfg spec with
    | (some seamE, some seamX) =>
      refineLoop R g rect request seed (applyDeltas knobs request) spec cfg seamE seamX
        (startInside g rect) (goalInside g rect) orig_report (List.range MAX_INNER_RETRIES)
    | (se, sx) =>
      (g.copy,
       { success := false, seam_entry := se, seam_exit := sx,
         reasons := ["Could not detect seam points on rect boundary"],
         reachability := some orig_report })

/-! ## Helper predicates and concrete instances used by the proofs -/

/-- The facts carried by every foothold that the intermediate loop of
`_generate_inner_footholds` accepts: the candidate lies inside `rect` with
head clearance, its width respects the minimum knob, and the pairwise
clearance check against the foothold `e` already in the chain holds. -/
def innerOkFrom (rect : RefineRect) (mw : Int) (e fh : Foothold) : Prop :=
  rect.x ≤ fh.x ∧ fh.x + fh.width - 1 ≤ rect.rightCol ∧
  rect.y + PLAYER_HEIGHT ≤ fh.y ∧ fh.y + 1 ≤ rect.bottom ∧
  mw ≤ fh.width ∧
  clearanceOkPair e fh = true

/-- The payload of the C9 witness: its first byte is `0x40`, a bit outside
the six defined flags. -/
def rawC9 : List Nat := 64 :: List.replicate 1023 0

/-- A witness grid for C8: a solid platform row plus one HAZARD cell. -/
def gridHaz : SemanticGrid32 :=
  ⟨fun x y => if x = 3 ∧ y = 3 then Cell.HAZARD
    else if y = 12 then Cell.SOLID else 0⟩

/-- The same grid with the HAZARD cell removed. -/
def gridNoHaz : SemanticGrid32 :=
  ⟨fun x y => if x = 3 ∧ y = 3 then 0
    else if y = 12 then Cell.SOLID else 0⟩

/-- The invariant that no cell of a grid carries the START bit. -/
def noStartGrid (g : SemanticGrid32) : Prop :=
  ∀ a b : Int, g.cells a b &&& Cell.START = 0

/-- The all-zero stream family: `randint(a, b)` always returns `a`. -/
def streamZero : RandFamily := fun _ _ => 0

/-- Generator witness knobs: seven width-2 footholds, flat, zero difficulty. -/
def knobsG0 : GeneratorKnobs :=
  { target_foothold_count := 7, min_foothold_width := 2, max_foothold_width := 2,
    verticality := ⟨0, 1⟩, difficulty := ⟨0, 1⟩ }

/-- Generator witness movement spec. -/
def specG0 : MovementSpec :=
  { max_jump_height := 0, max_jump_distance := 4, max_safe_drop := 0 }

def resultDefault : GenerationResult :=
  ⟨SemanticGrid32.empty, [], { reachable := false }, 0, 0⟩

def fhDefault : Foothold := ⟨0, 0, 0⟩

/-- Refinement scenario S1: a ONEWAY walkway at row 12 (columns 0-16) with
START standing on it at (2, 11) and GOAL at (16, 11). -/
def gridS1 : SemanticGrid32 :=
  ⟨fun x y => if y = 12 ∧ 0 ≤ x ∧ x ≤ 16 then Cell.ONEWAY
    else if x = 2 ∧ y = 11 then Cell.START
    else if x = 16 ∧ y = 11 then Cell.GOAL else 0⟩

/-- Flat movement for the refinement scenarios: horizontal jumps only. -/
def spec1 : MovementSpec :=
  { max_jump_height := 0, max_jump_distance := 5, max_safe_drop := 0 }

/-- The S1 rect: rows 7-11 and columns 10-14, so the walkway seams sit on
its bottom row and the seam floors lie just outside it. -/
def rect1 : RefineRect := ⟨10, 7, 5, 5⟩

/-- Refinement scenario S2: the walkway world with START moved to (11, 11),
inside the S2 rect. -/
def gridS2 : SemanticGrid32 :=
  ⟨fun x y => if y = 12 ∧ 0 ≤ x ∧ x ≤ 16 then Cell.ONEWAY
    else if x = 11 ∧ y = 11 then Cell.START
    else if x = 16 ∧ y = 11 then Cell.GOAL else 0⟩

/-- The S2 rect: columns 10-12, rows 1-11. -/
def rect2 : RefineRect := ⟨10, 1, 3, 11⟩

/-- S2 knobs: negative foothold widths (the dataclass accepts any int). -/
def knobs2 : GeneratorKnobs := { min_foothold_width := -2, max_foothold_width := -2 }

/-! ## General helper lemmas -/

theorem foldl_preserve {α β : Type} (P : α → Prop) (f : α → β → α)
    (h : ∀ a b, P a → P (f a b)) : ∀ (l : List β) (a : α), P a → P (l.foldl f a)
  | [], _, ha => ha
  | b :: l, a, ha => foldl_preserve P f h l (f a b) (h a b ha)

theorem allCongr {α : Type} {l : List α} {p q : α → Bool}
    (h : ∀ x ∈ l, p x = q x) : l.all p = l.all q := by
  induction l with
  | nil => rfl
  | cons a l ih =>
      simp only [List.all_cons]
      rw [h a (by simp), ih fun x hx => h x (by simp [hx])]

theorem opt_eq_some_getD {α : Type} (o : Option α) (d : α) (h : o.isSome = true) :
    o = some (o.getD d) := by cases o <;> simp_all

theorem head_append_singleton {α : Type} (l : List α) (x : α) (h : l ≠ []) :
    (l ++ [x]).head? = l.head? := by cases l <;> simp_all

theorem randint_mem (s : RandStream) (i : Nat) (a b : Int) (hab : a ≤ b) :
    a ≤ (randint s i a b).1 ∧ (randint s i a b).1 ≤ b := by
  have h0 : 0 ≤ Int.emod (Int.ofNat (s i)) (b - a + 1) := Int.emod_nonneg _ (by omega)
  have h1 : Int.emod (Int.ofNat (s i)) (b - a + 1) < b - a + 1 :=
    Int.emod_lt_of_pos _ (by omega)
  unfold randint
  rw [if_pos hab]
  omega

theorem and_sub_mask (v w m k : Nat) (hk : m &&& k = k)
    (h : v &&& m = w &&& m) : v &&& k = w &&& k := by
  have h1 : v &&& k = v &&& m &&& k := by rw [Nat.and_assoc, hk]
  have h2 : w &&& k = w &&& m &&& k := by rw [Nat.and_assoc, hk]
  rw [h1, h2, h]

theorem or_and_zero (v w m : Nat) (hv : v &&& m = 0) (hw : w &&& m = 0) :
    (v ||| w) &&& m = 0 := by
  rw [Nat.and_distrib_right, hv, hw]
  rfl

theorem gridEq_refl (g : SemanticGrid32) : SemanticGrid32.gridEq g g = true := by
  simp [SemanticGrid32.gridEq]

namespace SemanticGrid32

theorem get_set_self (g : SemanticGrid32) (x y : Int) (f : Nat) :
    (g.set x y f).get x y = f &&& 0xFF := by simp [get, set]

theorem get_set_other (g : SemanticGrid32) (x y : Int) (f : Nat) (a b : Int)
    (h : ¬(a = x ∧ b = y)) : (g.set x y f).get a b = g.get a b := by
  simp [get, set, h]

theorem get_addFlags_other (g : SemanticGrid32) (x y : Int) (f : Nat) (a b : Int)
    (h : ¬(a = x ∧ b = y)) : (g.addFlags x y f).get a b = g.get a b := by
  simp [get, addFlags, h]

theorem get_removeFlags_other (g : SemanticGrid32) (x y : Int) (f : Nat) (a b : Int)
    (h : ¬(a = x ∧ b = y)) : (g.removeFlags x y f).get a b = g.get a b := by
  simp [get, removeFlags, h]

end SemanticGrid32

/-! ## Claim C4: what `set` actually truncates to -/

/-- C4 counterexample: the claim says `set` truncates its argument to the
six defined flag bits, so that after `set(0, 0, 0x40)` the stored value
would satisfy `value & ~0x3F == 0` (equivalently `value &&& 0x3F = value`).
In the code `set` masks with `0xFF`, so the stored value is `0x40`, which
is not a subset of the six flags. -/
theorem C4_counterexample :
    ¬((SemanticGrid32.empty.set 0 0 0x40).get 0 0 &&& 0x3F
      = (SemanticGrid32.empty.set 0 0 0x40).get 0 0) := by decide

/-- C4 (amended): `set(x, y, flags)` at in-bounds `(x, y)` truncates its
argument to the low eight bits, storing `flags & 0xFF` - not to the six
defined flag bits.  Bits outside the six flags but inside the byte (such
as 0x40) survive, so only `value & ~0xFF == 0` is guaranteed after `set`. -/
theorem C4_set_truncates_to_byte (g : SemanticGrid32) (x y : Int) (flags : Nat)
    (hx : 0 ≤ x ∧ x < 32) (hy : 0 ≤ y ∧ y < 32) :
    (g.set x y flags).get x y = flags &&& 0xFF ∧ (g.set x y flags).get x y < 256 := by
  refine ⟨SemanticGrid32.get_set_self g x y flags, ?_⟩
  rw [SemanticGrid32.get_set_self g x y flags]
  have : flags &&& 0xFF ≤ 0xFF := Nat.and_le_right
  omega

/-- C4 witness: the amended statement at `(0, 0)` with flags `0x40`. -/
theorem C4_witness :
    (SemanticGrid32.empty.set 0 0 0x40).get 0 0 = 0x40 &&& 0xFF ∧
    (SemanticGrid32.empty.set 0 0 0x40).get 0 0 < 256 :=
  C4_set_truncates_to_byte SemanticGrid32.empty 0 0 0x40 (by decide) (by decide)

/-! ## Claim C3: in-process determinism of `generate_level` -/

/-- C3: two calls of `generate_level` with the same `(seed, knobs, spec)`
against the same PRNG family return byte-identical grids.  The embedding
makes `generate_level` a pure function of its arguments and of the stream
family, which is exactly the in-process determinism of the source (a fresh
`random.Random(seed + attempt)` per attempt and no other state). -/
theorem C3_generate_deterministic (R : RandFamily) (seed : Int)
    (knobs : GeneratorKnobs) (spec : MovementSpec) (r1 r2 : GenerationResult)
    (h1 : generate_level R seed knobs spec = some r1)
    (h2 : generate_level R seed knobs spec = some r2) :
    SemanticGrid32.gridEq r1.grid r2.grid = true := by
  have h : r1 = r2 := by
    have := h1.symm.trans h2
    exact Option.some.inj this
  rw [h]
  exact gridEq_refl r2.grid

/-! ## Claim C8: the corridor predicate is HAZARD-blind -/

theorem mem_intRange {a b k : Int} (h : k ∈ intRange a b) : a ≤ k ∧ k < b := by
  unfold intRange at h
  rw [List.mem_map] at h
  obtain ⟨n, hn, rfl⟩ := h
  rw [List.mem_range] at hn
  omega

theorem intRange_mem {a b k : Int} (h1 : a ≤ k) (h2 : k < b) : k ∈ intRange a b := by
  unfold intRange
  rw [List.mem_map]
  refine ⟨(k - a).toNat, ?_, by omega⟩
  rw [List.mem_range]
  omega

theorem and_chain5_congr (a b c d e1 e2 : Bool)
    (h : a = true → b = true → c = true → d = true → e1 = e2) :
    (a && b && c && d && e1) = (a && b && c && d && e2) := by
  cases a <;> cases b <;> cases c <;> cases d <;> simp_all

theorem and2_congr (a e1 e2 : Bool) (h : a = true → e1 = e2) :
    (a && e1) = (a && e2) := by
  cases a <;> simp_all

/-- Agreement of cells outside the HAZARD bit transfers to any sub-mask of
the non-HAZARD byte bits. -/
theorem hazard_blind_solid (v w : Nat) (h : v &&& 0xFB = w &&& 0xFB) :
    v &&& Cell.SOLID = w &&& Cell.SOLID :=
  and_sub_mask v w 0xFB Cell.SOLID (by decide) h

theorem hazard_blind_walk (v w : Nat) (h : v &&& 0xFB = w &&& 0xFB) :
    v &&& (Cell.SOLID ||| Cell.ONEWAY) = w &&& (Cell.SOLID ||| Cell.ONEWAY) :=
  and_sub_mask v w 0xFB (Cell.SOLID ||| Cell.ONEWAY) (by decide) h

/-- `body_clear` only inspects SOLID bits of in-bounds cells. -/
theorem bodyClear_congr (cfg : PlayerConfig) (g1 g2 : SemanticGrid32)
    (hsolid : ∀ x y : Int, 0 ≤ x → x < 32 → 0 ≤ y → y < 32 →
      g1.cells x y &&& 0xFB = g2.cells x y &&& 0xFB)
    (ix iy : Int) : bodyClear cfg g1 ix iy = bodyClear cfg g2 ix iy := by
  unfold bodyClear
  refine allCongr fun dh _ => ?_
  refine congrArg (fun b : Bool => !b) ?_
  refine and_chain5_congr _ _ _ _ _ _ fun h1 h2 h3 h4 => ?_
  have hy0 : 0 ≤ iy - dh := of_decide_eq_true h1
  have hy1 : iy - dh < 32 := of_decide_eq_true h2
  have hx0 : 0 ≤ ix := of_decide_eq_true h3
  have hx1 : ix < 32 := of_decide_eq_true h4
  have hg : g1.get ix (iy - dh) &&& Cell.SOLID = g2.get ix (iy - dh) &&& Cell.SOLID :=
    hazard_blind_solid _ _ (hsolid ix (iy - dh) hx0 hx1 hy0 hy1)
  exact decide_eq_decide.mpr (by rw [hg])

/-- `standable[y][x]` depends on HAZARD only through the feet cell. -/
theorem standable_congr (g1 g2 : SemanticGrid32)
    (hsolid : ∀ x y : Int, 0 ≤ x → x < 32 → 0 ≤ y → y < 32 →
      g1.cells x y &&& 0xFB = g2.cells x y &&& 0xFB)
    (x y : Int) (hfeet : g1.cells x y = g2.cells x y) :
    standableMask g1 x y = standableMask g2 x y := by
  unfold standableMask
  by_cases hb : 0 ≤ x ∧ x < 32 ∧ 0 ≤ y ∧ y < 31
  · obtain ⟨hx0, hx1, hy0, hy1⟩ := hb
    have hbelow : g1.get x (y + 1) &&& (Cell.SOLID ||| Cell.ONEWAY)
        = g2.get x (y + 1) &&& (Cell.SOLID ||| Cell.ONEWAY) :=
      hazard_blind_walk _ _ (hsolid x (y + 1) hx0 hx1 (by omega) (by omega))
    refine if_congr ?_ rfl rfl
    unfold SemanticGrid32.get at hbelow
    constructor
    · rintro ⟨a1, a2, a3, a4, a5, a6⟩
      refine ⟨a1, a2, a3, a4, ?_, ?_⟩
      · unfold SemanticGrid32.get at a5 ⊢
        rw [← hbelow]; exact a5
      · unfold SemanticGrid32.get at a6 ⊢
        rw [← hfeet]; exact a6
    · rintro ⟨a1, a2, a3, a4, a5, a6⟩
      refine ⟨a1, a2, a3, a4, ?_, ?_⟩
      · unfold SemanticGrid32.get at a5 ⊢
        rw [hbelow]; exact a5
      · unfold SemanticGrid32.get at a6 ⊢
        rw [hfeet]; exact a6
  · rw [if_neg, if_neg]
    · intro hc
      exact hb ⟨hc.1, hc.2.1, hc.2.2.1, hc.2.2.2.1⟩
    · intro hc
      exact hb ⟨hc.1, hc.2.1, hc.2.2.1, hc.2.2.2.1⟩

/-- `clearance[y][x]` only inspects SOLID bits. -/
theorem clearance_congr (cfg : PlayerConfig) (g1 g2 : SemanticGrid32)
    (hsolid : ∀ x y : Int, 0 ≤ x → x < 32 → 0 ≤ y → y < 32 →
      g1.cells x y &&& 0xFB = g2.cells x y &&& 0xFB)
    (x y : Int) : clearanceMask cfg g1 x y = clearanceMask cfg g2 x y := by
  unfold clearanceMask
  by_cases hb : 0 ≤ x ∧ x < 32 ∧ 0 ≤ y ∧ y < 32
  · rw [if_pos hb, if_pos hb]
    refine allCongr fun dh hdh => ?_
    have hdh0 : 0 ≤ dh := (mem_intRange hdh).1
    refine and2_congr _ _ _ fun h1 => ?_
    have hy0 : 0 ≤ y - dh := of_decide_eq_true h1
    have hg : g1.get x (y - dh) &&& Cell.SOLID = g2.get x (y - dh) &&& Cell.SOLID :=
      hazard_blind_solid _ _ (hsolid x (y - dh) hb.1 hb.2.1 hy0 (by omega))
    exact decide_eq_decide.mpr (by rw [hg])
  · rw [if_neg hb, if_neg hb]

/-- C8: (i) the corridor predicate returns the same verdict on any two
grids whose cells agree outside the HAZARD bit, for every pair of
endpoints; (ii) position validity on such grids can change only at a cell
whose own (feet) byte changes, i.e. HAZARD influences validity only
through the standable predicate's feet check. -/
theorem C8_corridor_hazard_blind (cfg : PlayerConfig) (g1 g2 : SemanticGrid32)
    (hsolid : ∀ x y : Int, 0 ≤ x → x < 32 → 0 ≤ y → y < 32 →
      g1.cells x y &&& 0xFB = g2.cells x y &&& 0xFB) :
    (∀ x1 y1 x2 y2 : Int, corridorOk cfg g1 x1 y1 x2 y2 = corridorOk cfg g2 x1 y1 x2 y2) ∧
    (∀ x y : Int, g1.cells x y = g2.cells x y →
      validAt cfg g1 x y = validAt cfg g2 x y) := by
  constructor
  · intro x1 y1 x2 y2
    unfold corridorOk
    by_cases hdx : x2 - x1 = 0
    · rw [if_pos hdx, if_pos hdx]
      exact allCongr fun cy _ => bodyClear_congr cfg g1 g2 hsolid x1 cy
    · rw [if_neg hdx, if_neg hdx]
      exact allCongr fun ix _ => bodyClear_congr cfg g1 g2 hsolid ix _
  · intro x y hfeet
    unfold validAt
    rw [standable_congr g1 g2 hsolid x y hfeet, clearance_congr cfg g1 g2 hsolid x y]

/-! ## Claims C7 and C9: serialisation -/

theorem b64val_b64chr_fin : ∀ n : Fin 64, b64val (b64chr n.val) = n.val := by decide

theorem b64chr_ne_pad_fin : ∀ n : Fin 64, b64chr n.val ≠ 61 := by decide

theorem b64val_chr (n : Nat) (h : n < 64) : b64val (b64chr n) = n :=
  b64val_b64chr_fin ⟨n, h⟩

theorem b64chr_ne_pad (n : Nat) (h : n < 64) : b64chr n ≠ 61 :=
  b64chr_ne_pad_fin ⟨n, h⟩

theorem b64_roundtrip : ∀ l : List Nat, (∀ b ∈ l, b < 256) →
    b64decode (b64encode l) = l := by
  intro l
  induction l using b64encode.induct with
  | case1 => intro _; rfl
  | case2 b0 =>
    intro h
    have hb0 : b0 < 256 := h b0 (by simp)
    simp only [b64encode, b64decode, if_pos]
    rw [b64val_chr _ (by omega), b64val_chr _ (by omega)]
    simp only [List.cons.injEq, and_true]
    omega
  | case3 b0 b1 =>
    intro h
    have hb0 : b0 < 256 := h b0 (by simp)
    have hb1 : b1 < 256 := h b1 (by simp)
    simp only [b64encode, b64decode]
    rw [if_neg (b64chr_ne_pad _ (by omega))]
    simp only [reduceIte]
    rw [b64val_chr _ (by omega), b64val_chr _ (by omega), b64val_chr _ (by omega)]
    simp only [List.cons.injEq, and_true]
    constructor
    · omega
    · omega
  | case4 b0 b1 b2 rest ih =>
    intro h
    have hb0 : b0 < 256 := h b0 (by simp)
    have hb1 : b1 < 256 := h b1 (by simp)
    have hb2 : b2 < 256 := h b2 (by simp)
    simp only [b64encode, b64decode]
    rw [if_neg (b64chr_ne_pad _ (by omega)), if_neg (b64chr_ne_pad _ (by omega))]
    rw [b64val_chr _ (by omega), b64val_chr _ (by omega), b64val_chr _ (by omega),
        b64val_chr _ (by omega)]
    rw [ih fun b hb => h b (by simp [hb])]
    simp only [List.cons.injEq, and_true]
    refine ⟨by omega, by omega, by omega⟩

theorem cellsList_length (g : SemanticGrid32) : g.cellsList.length = 1024 := by
  simp [SemanticGrid32.cellsList]

theorem cellsList_getElem (g : SemanticGrid32) (k : Nat) (hk : k < 1024) :
    g.cellsList.getD k 0 = g.cells ((k % 32 : Nat) : Int) ((k / 32 : Nat) : Int) := by
  unfold SemanticGrid32.cellsList
  rw [List.getD_eq_getElem?_getD, List.getElem?_map, List.getElem?_range hk]
  rfl

theorem cellsList_bytes (g : SemanticGrid32)
    (hbytes : ∀ x y : Int, 0 ≤ x → x < 32 → 0 ≤ y → y < 32 → g.cells x y < 256) :
    ∀ b ∈ g.cellsList, b < 256 := by
  intro b hb
  unfold SemanticGrid32.cellsList at hb
  rw [List.mem_map] at hb
  obtain ⟨k, hk, rfl⟩ := hb
  rw [List.mem_range] at hk
  exact hbytes _ _ (by omega) (by omega) (by omega) (by omega)

theorem gridEq_ofBytes_cellsList (g : SemanticGrid32) :
    SemanticGrid32.gridEq (SemanticGrid32.ofBytes g.cellsList) g = true := by
  unfold SemanticGrid32.gridEq
  rw [List.all_eq_true]
  intro yy hyy
  rw [List.all_eq_true]
  intro xx hxx
  rw [List.mem_range] at hyy hxx
  rw [beq_iff_eq]
  simp only [SemanticGrid32.ofBytes, SemanticGrid32.WIDTH, SemanticGrid32.HEIGHT]
  rw [if_pos (by refine ⟨by omega, by omega, by omega, by omega⟩)]
  have hidx : ((yy : Int) * 32 + (xx : Int)).toNat = yy * 32 + xx := by omega
  rw [hidx, cellsList_getElem g (yy * 32 + xx) (by omega)]
  have h1 : ((yy * 32 + xx) % 32 : Nat) = xx := by omega
  have h2 : ((yy * 32 + xx) / 32 : Nat) = yy := by omega
  rw [h1, h2]

/-- C7: deserialising the serialisation of any grid whose cells are bytes
(the representation invariant that every write path of the source
maintains) succeeds and yields a byte-identical grid. -/
theorem C7_serialization_roundtrip (g : SemanticGrid32)
    (hbytes : ∀ x y : Int, 0 ≤ x → x < 32 → 0 ≤ y → y < 32 → g.cells x y < 256) :
    (SemanticGrid32.fromJSON (SemanticGrid32.toJSON g)).map
      (fun g2 => SemanticGrid32.gridEq g2 g) = Except.ok true := by
  have hdec : b64decode (b64encode g.cellsList) = g.cellsList :=
    b64_roundtrip _ (cellsList_bytes g hbytes)
  unfold SemanticGrid32.toJSON SemanticGrid32.fromJSON
  rw [if_neg (by simp [SemanticGrid32.WIDTH, SemanticGrid32.HEIGHT])]
  rw [hdec]
  rw [if_neg (by rw [cellsList_length]; omega)]
  show Except.ok (SemanticGrid32.gridEq (SemanticGrid32.ofBytes g.cellsList) g) = _
  rw [gridEq_ofBytes_cellsList]

/-- C7 witness: the round-trip statement at the empty grid. -/
theorem C7_witness :
    (SemanticGrid32.fromJSON (SemanticGrid32.toJSON SemanticGrid32.empty)).map
      (fun g2 => SemanticGrid32.gridEq g2 SemanticGrid32.empty) = Except.ok true :=
  C7_serialization_roundtrip SemanticGrid32.empty fun x y _ _ _ _ => by
    show (0 : Nat) < 256
    decide

theorem cellsList_ofBytes (raw : List Nat) (hlen : raw.length = 1024) :
    (SemanticGrid32.ofBytes raw).cellsList = raw := by
  apply List.ext_getElem
  · rw [cellsList_length, hlen]
  · intro i h1 h2
    rw [cellsList_length] at h1
    unfold SemanticGrid32.cellsList
    rw [List.getElem_map, List.getElem_range]
    simp only [SemanticGrid32.ofBytes, SemanticGrid32.WIDTH, SemanticGrid32.HEIGHT]
    rw [if_pos (by refine ⟨by omega, by omega, by omega, by omega⟩)]
    have hidx : (((i / 32 : Nat) : Int) * 32 + ((i % 32 : Nat) : Int)).toNat = i := by omega
    rw [hidx]
    rw [List.getD_eq_getElem raw 0 (by omega)]

/-- C9: `fromJSON` performs no per-byte flag validation: any 1024-byte
payload (encoded as base64) deserialises successfully, the decoded bytes
are stored verbatim - including bytes with bits outside the six defined
flags, which therefore violate the six-flag cell invariant - and the
resulting grid serialises back to the identical payload. -/
theorem C9_fromJSON_stores_verbatim (raw : List Nat) (hlen : raw.length = 1024)
    (hb : ∀ b ∈ raw, b < 256) :
    SemanticGrid32.fromJSON ⟨32, 32, b64encode raw⟩
      = Except.ok (SemanticGrid32.ofBytes raw) ∧
    (SemanticGrid32.ofBytes raw).cellsList = raw ∧
    SemanticGrid32.toJSON (SemanticGrid32.ofBytes raw) = ⟨32, 32, b64encode raw⟩ := by
  have hcl : (SemanticGrid32.ofBytes raw).cellsList = raw := cellsList_ofBytes raw hlen
  refine ⟨?_, hcl, ?_⟩
  · unfold SemanticGrid32.fromJSON
    rw [if_neg (by simp [SemanticGrid32.WIDTH, SemanticGrid32.HEIGHT])]
    rw [b64_roundtrip raw hb]
    rw [if_neg (by omega)]
  · unfold SemanticGrid32.toJSON
    rw [hcl]
    rfl

/-- C9 witness: the theorem at a concrete payload whose first byte is
`0x40`; the stored cell is exactly `0x40`, which is not a subset of the
six defined flags. -/
theorem C9_witness :
    (SemanticGrid32.fromJSON ⟨32, 32, b64encode rawC9⟩
        = Except.ok (SemanticGrid32.ofBytes rawC9) ∧
      (SemanticGrid32.ofBytes rawC9).cellsList = rawC9 ∧
      SemanticGrid32.toJSON (SemanticGrid32.ofBytes rawC9) = ⟨32, 32, b64encode rawC9⟩) ∧
    (SemanticGrid32.ofBytes rawC9).cells 0 0 = 0x40 ∧
    ¬((SemanticGrid32.ofBytes rawC9).cells 0 0 &&& 0x3F
      = (SemanticGrid32.ofBytes rawC9).cells 0 0) := by
  refine ⟨C9_fromJSON_stores_verbatim rawC9 ?_ ?_, ?_, ?_⟩
  · unfold rawC9
    rw [List.length_cons, List.length_replicate]
  · intro b hb
    unfold rawC9 at hb
    rw [List.mem_cons, List.mem_replicate] at hb
    rcases hb with h | ⟨_, h⟩ <;> omega
  · show (if 0 ≤ (0 : Int) ∧ (0 : Int) < 32 ∧ 0 ≤ (0 : Int) ∧ (0 : Int) < 32
      then rawC9.getD ((0 : Int) * 32 + 0).toNat 0 else 0) = 0x40
    rw [if_pos (by refine ⟨by omega, by omega, by omega, by omega⟩)]
    rfl
  · show ¬((SemanticGrid32.ofBytes rawC9).cells 0 0 &&& 0x3F
      = (SemanticGrid32.ofBytes rawC9).cells 0 0)
    have h : (SemanticGrid32.ofBytes rawC9).cells 0 0 = 0x40 := by
      show (if 0 ≤ (0 : Int) ∧ (0 : Int) < 32 ∧ 0 ≤ (0 : Int) ∧ (0 : Int) < 32
        then rawC9.getD ((0 : Int) * 32 + 0).toNat 0 else 0) = 0x40
      rw [if_pos (by refine ⟨by omega, by omega, by omega, by omega⟩)]
      rfl
    rw [h]
    decide

theorem gridHaz_agree : ∀ x y : Int, 0 ≤ x → x < 32 → 0 ≤ y → y < 32 →
    gridHaz.cells x y &&& 0xFB = gridNoHaz.cells x y &&& 0xFB := by
  intro x y _ _ _ _
  show (if x = 3 ∧ y = 3 then Cell.HAZARD else if y = 12 then Cell.SOLID else 0) &&& 0xFB
    = (if x = 3 ∧ y = 3 then 0 else if y = 12 then Cell.SOLID else 0) &&& 0xFB
  by_cases h : x = 3 ∧ y = 3
  · rw [if_pos h, if_pos h]
    decide
  · rw [if_neg h, if_neg h]

/-- C8 witness: the HAZARD-blindness statement instantiated at the two
concrete grids (an edge through the hazard cell, and validity at a cell
away from it). -/
theorem C8_witness :
    corridorOk (cfgOfSpec {}) gridHaz 0 3 6 3 = corridorOk (cfgOfSpec {}) gridNoHaz 0 3 6 3 ∧
    validAt (cfgOfSpec {}) gridHaz 5 11 = validAt (cfgOfSpec {}) gridNoHaz 5 11 := by
  have h := C8_corridor_hazard_blind (cfgOfSpec {}) gridHaz gridNoHaz gridHaz_agree
  refine ⟨h.1 0 3 6 3, h.2 5 11 ?_⟩
  show (if (5 : Int) = 3 ∧ (11 : Int) = 3 then Cell.HAZARD else if (11 : Int) = 12 then Cell.SOLID else 0)
    = (if (5 : Int) = 3 ∧ (11 : Int) = 3 then 0 else if (11 : Int) = 12 then Cell.SOLID else 0)
  decide

/-! ## Claim C1: generated grids validate as reachable -/

/-- Inversion of the attempt loop of `generate_level`: a returned result
was produced by some attempt stream, its grid is the materialisation of
its footholds, and the validator accepted it. -/
theorem genLoop_some (R : RandFamily) (seed : Int) (knobs : GeneratorKnobs)
    (spec : MovementSpec) :
    ∀ (l : List Nat) (res : GenerationResult),
      genLoop R seed knobs spec l = some res →
      ∃ s : RandStream, genFootholds s knobs spec = some res.footholds ∧
        res.grid = footholds_to_grid res.footholds ∧
        (validate (cfgOfSpec spec) res.grid none none).reachable = true := by
  intro l
  induction l with
  | nil => intro res h; exact absurd h (by simp [genLoop])
  | cons a rest ih =>
    intro res h
    simp only [genLoop] at h
    cases hg : genFootholds (R (seed + (a : Int))) knobs spec with
    | none => simp only [hg] at h; exact ih res h
    | some fhs =>
      simp only [hg] at h
      by_cases hr : (validate (cfgOfSpec spec) (footholds_to_grid fhs) none none).reachable = true
      · rw [if_pos hr] at h
        cases h
        exact ⟨R (seed + (a : Int)), hg, rfl, hr⟩
      · rw [if_neg hr] at h
        exact ih res h

/-- C1: whenever `generate_level` returns a `GenerationResult` (rather
than raising), running the validator on the result's grid with the
`PlayerConfig` that `generate_level` itself builds reports
`reachable = true`. -/
theorem C1_generated_grid_reachable (R : RandFamily) (seed : Int)
    (knobs : GeneratorKnobs) (spec : MovementSpec) (res : GenerationResult)
    (h : generate_level R seed knobs spec = some res) :
    (validate (cfgOfSpec spec) res.grid none none).reachable = true := by
  obtain ⟨s, _, _, hr⟩ := genLoop_some R seed knobs spec (List.range MAX_RETRIES) res h
  exact hr

/-! ## Claim C10: a single foothold loses its START marker -/

theorem noStart_empty : noStartGrid SemanticGrid32.empty := by
  intro a b
  show (0 : Nat) &&& Cell.START = 0
  decide

theorem cells_set_set_same (g : SemanticGrid32) (x y : Int) (f1 f2 : Nat) (a b : Int) :
    ((g.set x y f1).set x y f2).cells a b = (g.set x y f2).cells a b := by
  show (if a = x ∧ b = y then f2 &&& 0xFF else ((g.set x y f1)).cells a b)
    = (if a = x ∧ b = y then f2 &&& 0xFF else g.cells a b)
  by_cases hc : a = x ∧ b = y
  · rw [if_pos hc, if_pos hc]
  · rw [if_neg hc, if_neg hc]
    show (if a = x ∧ b = y then f1 &&& 0xFF else g.cells a b) = g.cells a b
    rw [if_neg hc]

theorem noStart_set (g : SemanticGrid32) (x y : Int) (f : Nat)
    (hf : f &&& Cell.START = 0) (h : noStartGrid g) : noStartGrid (g.set x y f) := by
  intro a b
  show (if a = x ∧ b = y then f &&& 0xFF else g.cells a b) &&& Cell.START = 0
  split
  · rw [Nat.and_assoc]
    show f &&& (255 &&& 32) = 0
    rw [show (255 &&& 32 : Nat) = 32 from rfl]
    exact hf
  · exact h a b

theorem noStart_addFlags (g : SemanticGrid32) (x y : Int) (f : Nat)
    (hf : f &&& Cell.START = 0) (h : noStartGrid g) : noStartGrid (g.addFlags x y f) := by
  intro a b
  show ((if a = x ∧ b = y then (g.cells a b ||| f) &&& 0xFF else g.cells a b)) &&& Cell.START = 0
  split
  · rw [Nat.and_assoc]
    show (g.cells a b ||| f) &&& (255 &&& 32) = 0
    rw [show (255 &&& 32 : Nat) = 32 from rfl]
    exact or_and_zero _ _ _ (h a b) hf
  · exact h a b

theorem noStart_removeFlags (g : SemanticGrid32) (x y : Int) (f : Nat)
    (h : noStartGrid g) : noStartGrid (g.removeFlags x y f) := by
  intro a b
  show (if a = x ∧ b = y then g.cells a b &&& (0xFF ^^^ (f &&& 0xFF)) else g.cells a b)
    &&& Cell.START = 0
  split
  · rw [Nat.and_assoc, Nat.and_comm (0xFF ^^^ (f &&& 0xFF)) Cell.START, ← Nat.and_assoc,
      h a b, Nat.zero_and]
  · exact h a b

theorem noStart_applyRectCell (flags : Nat) (mode : SemanticGrid32.ApplyMode)
    (hf : flags &&& Cell.START = 0) (g : SemanticGrid32) (p : Int × Int)
    (h : noStartGrid g) : noStartGrid (SemanticGrid32.applyRectCell flags mode g p) := by
  unfold SemanticGrid32.applyRectCell
  split
  · cases mode with
    | overwrite => exact noStart_set g p.1 p.2 flags hf h
    | add => exact noStart_addFlags g p.1 p.2 flags hf h
    | remove => exact noStart_removeFlags g p.1 p.2 flags h
  · exact h

theorem noStart_applyRect (g : SemanticGrid32) (x y w h : Int) (flags : Nat)
    (mode : SemanticGrid32.ApplyMode) (hf : flags &&& Cell.START = 0)
    (hg : noStartGrid g) : noStartGrid (g.applyRect x y w h flags mode) :=
  foldl_preserve noStartGrid _
    (fun g2 p h2 => noStart_applyRectCell flags mode hf g2 p h2) _ g hg

theorem noStart_paintSurfaces (fhs : List Foothold) (g : SemanticGrid32)
    (hg : noStartGrid g) : noStartGrid (paintSurfacesGen fhs g).1 := by
  have h := foldl_preserve (fun st : SemanticGrid32 × List (Int × Int) => noStartGrid st.1)
    (fun acc fh => fh.xCols.foldl (surfaceStep fh) acc) ?_ fhs (g, []) hg
  · exact h
  · intro acc fh hacc
    refine foldl_preserve (fun st : SemanticGrid32 × List (Int × Int) => noStartGrid st.1)
      (surfaceStep fh) ?_ fh.xCols acc hacc
    intro acc2 xx hacc2
    unfold surfaceStep
    split
    · exact noStart_addFlags acc2.1 xx fh.surfaceY Cell.SOLID (by decide) hacc2
    · exact hacc2

theorem noStart_clearFootholds (fhs : List Foothold) (surf : List (Int × Int))
    (g : SemanticGrid32) (hg : noStartGrid g) : noStartGrid (clearFootholds fhs surf g) := by
  refine foldl_preserve noStartGrid _ ?_ fhs g hg
  intro g2 fh h2
  refine foldl_preserve noStartGrid (clearanceStep surf) ?_ _ g2 h2
  intro g3 p h3
  unfold clearanceStep
  split
  · exact noStart_removeFlags g3 p.1 p.2 Cell.SOLID h3
  · exact h3

/-- In the grid materialised from a single foothold, the GOAL marker
overwrites the START marker (both are placed at the same centre cell), so
no cell carries START. -/
theorem noStart_footgrid_single (fh : Foothold) :
    noStartGrid (footholds_to_grid [fh]) := by
  have hg3 : noStartGrid (clearFootholds [fh]
      (paintSurfacesGen [fh] (SemanticGrid32.empty.applyRect 0 (H - 1) W 1 Cell.SOLID .overwrite)).2
      (paintSurfacesGen [fh] (SemanticGrid32.empty.applyRect 0 (H - 1) W 1 Cell.SOLID .overwrite)).1) :=
    noStart_clearFootholds _ _ _
      (noStart_paintSurfaces _ _
        (noStart_applyRect _ _ _ _ _ _ .overwrite (by decide) noStart_empty))
  intro a b
  unfold footholds_to_grid
  show (((clearFootholds [fh]
      (paintSurfacesGen [fh] (SemanticGrid32.empty.applyRect 0 (H - 1) W 1 Cell.SOLID .overwrite)).2
      (paintSurfacesGen [fh] (SemanticGrid32.empty.applyRect 0 (H - 1) W 1 Cell.SOLID .overwrite)).1).set
        (fh.x + Int.fdiv fh.width 2) fh.y Cell.START).set
        (fh.x + Int.fdiv fh.width 2) fh.y Cell.GOAL).cells a b &&& Cell.START = 0
  rw [cells_set_set_same]
  exact noStart_set _ _ _ Cell.GOAL (by decide) hg3 a b

theorem findFlag_none (g : SemanticGrid32) (flag : Nat)
    (h : ∀ a b : Int, g.cells a b &&& flag = 0) : findFlag g flag = none := by
  unfold findFlag
  rw [List.find?_eq_none]
  intro p _
  simp [SemanticGrid32.get, h p.1 p.2]

theorem validate_no_start (cfg : PlayerConfig) (g : SemanticGrid32)
    (h : findFlag g Cell.START = none) :
    (validate cfg g none none).reachable = false := by
  unfold validate
  rw [h]
  cases findFlag g Cell.GOAL <;> rfl

theorem genFootholds_single (s : RandStream) (knobs : GeneratorKnobs)
    (spec : MovementSpec) (hN : knobs.target_foothold_count ≤ 1) :
    ∃ fh : Foothold, genFootholds s knobs spec = some [fh] := by
  unfold genFootholds
  have hr : intRange 1 knobs.target_foothold_count = [] := by
    unfold intRange
    rw [show (knobs.target_foothold_count - 1).toNat = 0 by omega]
    rfl
  rw [hr]
  exact ⟨_, rfl⟩

theorem genLoop_none_single (R : RandFamily) (seed : Int) (knobs : GeneratorKnobs)
    (spec : MovementSpec) (hN : knobs.target_foothold_count ≤ 1) :
    ∀ l : List Nat, genLoop R seed knobs spec l = none := by
  intro l
  induction l with
  | nil => rfl
  | cons a rest ih =>
    obtain ⟨fh, hg⟩ := genFootholds_single (R (seed + (a : Int))) knobs spec hN
    simp only [genLoop, hg]
    rw [if_neg]
    · exact ih
    · rw [validate_no_start (cfgOfSpec spec) (footholds_to_grid [fh])
        (findFlag_none _ _ (noStart_footgrid_single fh))]
      simp

/-- C10: with `target_foothold_count = 1` the first and last foothold
coincide, START is overwritten by GOAL at their common centre cell, the
validator never finds a START marker, every one of the 40 attempts reports
unreachable, and `generate_level` raises (returns `none`) for every seed,
spec and PRNG behaviour. -/
theorem C10_single_foothold_always_fails (R : RandFamily) (seed : Int)
    (knobs : GeneratorKnobs) (spec : MovementSpec)
    (hN : knobs.target_foothold_count = 1) :
    generate_level R seed knobs spec = none := by
  unfold generate_level
  exact genLoop_none_single R seed knobs spec (by omega) (List.range MAX_RETRIES)

/-- C10 witness: the default knobs with the count forced to 1. -/
theorem C10_witness :
    generate_level (fun _ _ => 0) 0 { target_foothold_count := 1 } {} = none :=
  C10_single_foothold_always_fails (fun _ _ => 0) 0 { target_foothold_count := 1 } {} rfl

/-! ## Claim C6: first and last foothold positions -/

theorem getLast_some_ne_nil {α : Type} {l : List α} {a : α}
    (h : l.getLast? = some a) : l ≠ [] := by
  intro he
  subst he
  simp at h

theorem stepTry_some_not_rejected (s : RandStream) (knobs : GeneratorKnobs)
    (spec : MovementSpec) (fhs : List Foothold) (prev : Foothold) (isLast : Bool)
    (min_dx max_up max_down eff_max_w : Int) :
    ∀ (fuel i : Nat) (fh : Foothold) (i2 : Nat),
      stepTry s knobs spec fhs prev isLast min_dx max_up max_down eff_max_w i fuel
        = some (fh, i2) →
      candidateRejected fhs isLast fh = false := by
  intro fuel
  induction fuel with
  | zero => intro i fh i2 h; exact absurd h (by simp [stepTry])
  | succ fuel ih =>
    intro i fh i2 h
    simp only [stepTry] at h
    split at h <;> split at h <;>
      first
        | exact ih _ fh i2 h
        | (cases h; simp_all)

theorem rejected_false_last (fhs : List Foothold) (cand : Foothold)
    (h : candidateRejected fhs true cand = false) : GOAL_X_MIN ≤ cand.x := by
  unfold candidateRejected at h
  by_contra hlt
  have hd : decide (cand.x < GOAL_X_MIN) = true := by
    simp only [decide_eq_true_eq]
    omega
  rw [hd] at h
  simp at h

theorem buildFoots_head (s : RandStream) (knobs : GeneratorKnobs)
    (spec : MovementSpec) (N : Int) :
    ∀ (il : List Int) (fhs : List Foothold) (i : Nat) (out : List Foothold),
      buildFoots s knobs spec N il fhs i = some out → out.head? = fhs.head? := by
  intro il
  induction il with
  | nil => intro fhs i out h; cases h; rfl
  | cons ii rest ih =>
    intro fhs i out h
    simp only [buildFoots] at h
    cases hL : fhs.getLast? with
    | none => simp [hL] at h
    | some prev =>
      simp only [hL] at h
      cases hs : stepTry s knobs spec fhs prev (decide (ii = N - 1))
          (min (max (minDxForProgress prev.x (N - ii) GOAL_X_MIN spec.max_jump_distance)
            (max (diffMin knobs spec) 1)) spec.max_jump_distance)
          (maxUpOf knobs spec) (maxDownOf knobs spec) (effMaxW knobs) i MAX_STEP_TRIES with
      | none => simp [hs] at h
      | some pr =>
        obtain ⟨fh1, i2⟩ := pr
        simp only [hs] at h
        have hout := ih (fhs ++ [fh1]) i2 out h
        rw [hout, head_append_singleton _ _ (getLast_some_ne_nil hL)]

theorem buildFoots_last (s : RandStream) (knobs : GeneratorKnobs)
    (spec : MovementSpec) (N : Int) :
    ∀ (il : List Int) (fhs : List Foothold) (i : Nat) (out : List Foothold),
      buildFoots s knobs spec N il fhs i = some out →
      il.getLast? = some (N - 1) →
      ∃ fh, out.getLast? = some fh ∧ GOAL_X_MIN ≤ fh.x := by
  intro il
  induction il with
  | nil => intro fhs i out h hlast; simp at hlast
  | cons ii rest ih =>
    intro fhs i out h hlast
    simp only [buildFoots] at h
    cases hL : fhs.getLast? with
    | none => simp [hL] at h
    | some prev =>
      simp only [hL] at h
      cases hs : stepTry s knobs spec fhs prev (decide (ii = N - 1))
          (min (max (minDxForProgress prev.x (N - ii) GOAL_X_MIN spec.max_jump_distance)
            (max (diffMin knobs spec) 1)) spec.max_jump_distance)
          (maxUpOf knobs spec) (maxDownOf knobs spec) (effMaxW knobs) i MAX_STEP_TRIES with
      | none => simp [hs] at h
      | some pr =>
        obtain ⟨fh1, i2⟩ := pr
        simp only [hs] at h
        cases rest with
        | nil =>
          cases h
          have hii : ii = N - 1 := by simpa using hlast
          have hrej := stepTry_some_not_rejected s knobs spec fhs prev _ _ _ _ _
            MAX_STEP_TRIES i fh1 i2 hs
          rw [hii] at hrej
          rw [decide_eq_true (by rfl : N - 1 = N - 1)] at hrej
          refine ⟨fh1, ?_, rejected_false_last fhs fh1 hrej⟩
          simp
        | cons j rest2 =>
          have hlast2 : (j :: rest2).getLast? = some (N - 1) := by
            rwa [List.getLast?_cons_cons] at hlast
          exact ih (fhs ++ [fh1]) i2 out h hlast2

theorem intRange_getLast (a b : Int) (h : a < b) :
    (intRange a b).getLast? = some (b - 1) := by
  unfold intRange
  have hn : (b - a).toNat = (b - a).toNat - 1 + 1 := by omega
  rw [hn, List.range_succ, List.map_append]
  rw [List.map_cons, List.map_nil, List.getLast?_concat]
  simp only [Option.some.injEq]
  omega

theorem genFootholds_head (s : RandStream) (knobs : GeneratorKnobs)
    (spec : MovementSpec) (out : List Foothold)
    (h : genFootholds s knobs spec = some out) :
    ∃ fh : Foothold, out.head? = some fh ∧ 2 ≤ fh.x ∧ fh.x ≤ 5 := by
  unfold genFootholds at h
  have hh := buildFoots_head s knobs spec knobs.target_foothold_count _ _ _ out h
  refine ⟨_, by rw [hh]; rfl, (randint_mem s _ 2 5 (by omega)).1,
    (randint_mem s _ 2 5 (by omega)).2⟩

theorem genFootholds_last (s : RandStream) (knobs : GeneratorKnobs)
    (spec : MovementSpec) (out : List Foothold)
    (h : genFootholds s knobs spec = some out)
    (hN : 2 ≤ knobs.target_foothold_count) :
    ∃ fh : Foothold, out.getLast? = some fh ∧ GOAL_X_MIN ≤ fh.x := by
  unfold genFootholds at h
  exact buildFoots_last s knobs spec knobs.target_foothold_count _ _ _ out h
    (intRange_getLast 1 knobs.target_foothold_count (by omega))

/-- C6: in every result `generate_level` returns, the first foothold's
left edge lies in `[2, 5]` and the last foothold's left edge is at least
26.  (For `target_foothold_count ≤ 1` the claim holds vacuously: such a
call can never return, because the single foothold's GOAL marker
overwrites its START marker and validation always fails.) -/
theorem C6_first_last_footholds (R : RandFamily) (seed : Int)
    (knobs : GeneratorKnobs) (spec : MovementSpec) (res : GenerationResult)
    (h : generate_level R seed knobs spec = some res) :
    (∀ f, res.footholds.head? = some f → 2 ≤ f.x ∧ f.x ≤ 5) ∧
    (∀ f, res.footholds.getLast? = some f → GOAL_X_MIN ≤ f.x) := by
  obtain ⟨s, hg, hgrid, hr⟩ := genLoop_some R seed knobs spec _ res h
  constructor
  · intro f hf
    obtain ⟨fh, hh, h2, h5⟩ := genFootholds_head s knobs spec _ hg
    rw [hf] at hh
    cases Option.some.inj hh
    exact ⟨h2, h5⟩
  · intro f hf
    by_cases hN : 2 ≤ knobs.target_foothold_count
    · obtain ⟨fh, hlast, h26⟩ := genFootholds_last s knobs spec _ hg hN
      rw [hf] at hlast
      cases Option.some.inj hlast
      exact h26
    · obtain ⟨fh1, hsingle⟩ := genFootholds_single s knobs spec (by omega)
      have hfoot : res.footholds = [fh1] := Option.some.inj (hg.symm.trans hsingle)
      have hfalse : (validate (cfgOfSpec spec) res.grid none none).reachable = false := by
        rw [hgrid, hfoot]
        exact validate_no_start _ _ (findFlag_none _ _ (noStart_footgrid_single fh1))
      rw [hfalse] at hr
      cases hr

/-! ## Witness scenario for the generator claims (C1, C3, C6) -/

set_option maxRecDepth 100000

set_option maxHeartbeats 4000000

theorem genG0_isSome : (generate_level streamZero 0 knobsG0 specG0).isSome = true := by
  decide

theorem genG0_eq : generate_level streamZero 0 knobsG0 specG0
    = some ((generate_level streamZero 0 knobsG0 specG0).getD resultDefault) :=
  opt_eq_some_getD _ _ genG0_isSome

/-- C1 witness: a concrete successful generation validates as reachable. -/
theorem C1_witness :
    (validate (cfgOfSpec specG0)
      ((generate_level streamZero 0 knobsG0 specG0).getD resultDefault).grid
      none none).reachable = true :=
  C1_generated_grid_reachable streamZero 0 knobsG0 specG0 _ genG0_eq

/-- C3 witness: two identical concrete calls return byte-identical grids. -/
theorem C3_witness :
    SemanticGrid32.gridEq
      ((generate_level streamZero 0 knobsG0 specG0).getD resultDefault).grid
      ((generate_level streamZero 0 knobsG0 specG0).getD resultDefault).grid = true :=
  C3_generate_deterministic streamZero 0 knobsG0 specG0 _ _ genG0_eq genG0_eq

theorem head?_eq_headD {α : Type} (l : List α) (d : α) (h : l ≠ []) :
    l.head? = some (l.headD d) := by cases l <;> simp_all

theorem getLast?_eq_getLastD {α : Type} (l : List α) (d : α) (h : l ≠ []) :
    l.getLast? = some (l.getLastD d) := by
  rw [List.getLastD_eq_getLast?]
  exact opt_eq_some_getD _ _ (by rwa [List.getLast?_isSome])

/-- C6 witness: the first/last-foothold bounds at the concrete generation. -/
theorem C6_witness :
    (2 ≤ (((generate_level streamZero 0 knobsG0 specG0).getD resultDefault).footholds.headD
        fhDefault).x ∧
      (((generate_level streamZero 0 knobsG0 specG0).getD resultDefault).footholds.headD
        fhDefault).x ≤ 5) ∧
    GOAL_X_MIN ≤ (((generate_level streamZero 0 knobsG0 specG0).getD
        resultDefault).footholds.getLastD fhDefault).x := by
  have hC6 := C6_first_last_footholds streamZero 0 knobsG0 specG0 _ genG0_eq
  obtain ⟨s, hg, _, _⟩ := genLoop_some streamZero 0 knobsG0 specG0 _ _ genG0_eq
  obtain ⟨fh, hh, _, _⟩ := genFootholds_head s _ _ _ hg
  have hne : ((generate_level streamZero 0 knobsG0 specG0).getD resultDefault).footholds ≠ [] := by
    intro he
    rw [he] at hh
    simp at hh
  exact ⟨hC6.1 _ (head?_eq_headD _ fhDefault hne), hC6.2 _ (getLast?_eq_getLastD _ fhDefault hne)⟩

/-! ## Claims C2 and C5: shared machinery for `refine_region` -/

theorem foldl_get_eq_mem {β : Type} (step : SemanticGrid32 → β → SemanticGrid32)
    (cx cy : Int) :
    ∀ (l : List β), (∀ g b, b ∈ l → (step g b).get cx cy = g.get cx cy) →
      ∀ g, (l.foldl step g).get cx cy = g.get cx cy := by
  intro l
  induction l with
  | nil => intro _ g; rfl
  | cons b rest ih =>
    intro h g
    rw [List.foldl_cons, ih (fun g2 b2 hb2 => h g2 b2 (by simp [hb2])) (step g b),
      h g b (by simp)]

theorem foldl_get_eq_mem_pair {β γ : Type}
    (step : SemanticGrid32 × γ → β → SemanticGrid32 × γ) (cx cy : Int) :
    ∀ (l : List β), (∀ acc b, b ∈ l → (step acc b).1.get cx cy = acc.1.get cx cy) →
      ∀ acc, (l.foldl step acc).1.get cx cy = acc.1.get cx cy := by
  intro l
  induction l with
  | nil => intro _ _; rfl
  | cons b rest ih =>
    intro h acc
    rw [List.foldl_cons, ih (fun a2 b2 hb2 => h a2 b2 (by simp [hb2])) (step acc b),
      h acc b (by simp)]

theorem foldl_preserve_mem {α β : Type} (P : α → Prop) (f : α → β → α) :
    ∀ (l : List β), (∀ a b, b ∈ l → P a → P (f a b)) →
      ∀ a, P a → P (l.foldl f a) := by
  intro l
  induction l with
  | nil => intro _ a ha; exact ha
  | cons b rest ih =>
    intro h a ha
    exact ih (fun a2 b2 hb2 ha2 => h a2 b2 (by simp [hb2]) ha2) (f a b) (h a b (by simp) ha)

/-- Inversion of the `refine_region` attempt loop at a successful return. -/
theorem refineLoop_success_inv (R : RandFamily) (g : SemanticGrid32)
    (rect : RefineRect) (request : RefineRequest) (seed : Int)
    (ik : GeneratorKnobs) (spec : MovementSpec) (cfg : PlayerConfig)
    (seamE seamX : Pos) (si gi : Bool) (orep : ReachabilityReport) :
    ∀ (l : List Nat) (gout : SemanticGrid32) (rep : RefineReport),
      refineLoop R g rect request seed ik spec cfg seamE seamX si gi orep l = (gout, rep) →
      rep.success = true →
      ∃ (s : RandStream) (fhs : List Foothold) (i : Nat),
        genInner s ik spec rect seamE seamX 0 = some (fhs, i) ∧
        rep.seam_entry = some seamE ∧ rep.seam_exit = some seamX ∧
        gout = refineAttemptGrid g rect request s fhs i si gi := by
  intro l
  induction l with
  | nil =>
    intro gout rep h hs
    cases h
    simp at hs
  | cons a rest ih =>
    intro gout rep h hs
    simp only [refineLoop] at h
    cases hg : genInner (R (seed + (a : Int))) ik spec rect seamE seamX 0 with
    | none =>
      simp only [hg] at h
      exact ih gout rep h hs
    | some pr =>
      obtain ⟨fhs, i⟩ := pr
      simp only [hg] at h
      by_cases hr : (validate cfg
          (refineAttemptGrid g rect request (R (seed + (a : Int))) fhs i si gi)
          none none).reachable = true
      · rw [if_pos hr] at h
        cases h
        exact ⟨R (seed + (a : Int)), fhs, i, hg, rfl, rfl, rfl⟩
      · rw [if_neg hr] at h
        exact ih gout rep h hs

/-- Inversion of `refine_region` at a successful return. -/
theorem refine_success_inv (R : RandFamily) (g : SemanticGrid32)
    (rect : RefineRect) (request : RefineRequest) (seed : Int)
    (knobs : GeneratorKnobs) (spec : MovementSpec)
    (gout : SemanticGrid32) (rep : RefineReport)
    (h : refine_region R g rect request seed knobs spec = (gout, rep))
    (hs : rep.success = true) :
    ∃ (seamE seamX : Pos) (s : RandStream) (fhs : List Foothold) (i : Nat),
      findSeams g rect (cfgOfSpec spec) spec = (some seamE, some seamX) ∧
      genInner s (applyDeltas knobs request) spec rect seamE seamX 0 = some (fhs, i) ∧
      rep.seam_entry = some seamE ∧ rep.seam_exit = some seamX ∧
      gout = refineAttemptGrid g rect request s fhs i
        (startInside g rect) (goalInside g rect) := by
  unfold refine_region at h
  by_cases hor : (validate (cfgOfSpec spec) g none none).reachable = false
  · rw [if_pos hor] at h
    cases h
    simp at hs
  · rw [if_neg hor] at h
    cases hfs : findSeams g rect (cfgOfSpec spec) spec with
    | mk se sx =>
      rw [hfs] at h
      cases se with
      | none =>
        cases sx <;> (cases h; simp at hs)
      | some seamE =>
        cases sx with
        | none =>
          cases h
          simp at hs
        | some seamX =>
          obtain ⟨s, fhs, i, hg, he, hx, hgrid⟩ :=
            refineLoop_success_inv R g rect request seed (applyDeltas knobs request)
              spec (cfgOfSpec spec) seamE seamX (startInside g rect) (goalInside g rect)
              _ _ gout rep h hs
          exact ⟨seamE, seamX, s, fhs, i, rfl, hg, he, hx, hgrid⟩

/-- Every position the reachable-set BFS collects is valid, provided the
initial visited set is. -/
theorem bfsReachLoop_valid (g : SemanticGrid32) (valid : Int → Int → Bool)
    (spec : MovementSpec) :
    ∀ (fuel : Nat) (visited queue : List Pos),
      (∀ p ∈ visited, valid p.1 p.2 = true) →
      ∀ p ∈ bfsReachLoop g valid spec visited queue fuel, valid p.1 p.2 = true := by
  intro fuel
  induction fuel with
  | zero =>
    intro visited queue hv p hp
    cases queue with
    | nil => simp only [bfsReachLoop] at hp; exact hv p hp
    | cons c rest => simp only [bfsReachLoop] at hp; exact hv p hp
  | succ fuel ih =>
    intro visited queue hv p hp
    cases queue with
    | nil => simp only [bfsReachLoop] at hp; exact hv p hp
    | cons cur rest =>
      simp only [bfsReachLoop] at hp
      refine ih _ _ ?_ p hp
      intro q hq
      rw [List.mem_append] at hq
      rcases hq with hq | hq
      · exact hv q hq
      · rw [List.mem_flatMap] at hq
        obtain ⟨dx, _, hq⟩ := hq
        rw [List.mem_filterMap] at hq
        obtain ⟨dy, _, hsome⟩ := hq
        split at hsome
        · exact absurd hsome (by simp)
        · split at hsome
          · exact absurd hsome (by simp)
          · split at hsome
            · cases Option.some.inj hsome
              rename_i hnv _
              rw [not_or] at hnv
              have := hnv.2
              simp only [ne_eq, Bool.not_eq_false] at this
              exact this
            · exact absurd hsome (by simp)

theorem bfsReachable_valid (g : SemanticGrid32) (valid : Int → Int → Bool)
    (start : Pos) (spec : MovementSpec) (hstart : valid start.1 start.2 = true) :
    ∀ p ∈ bfsReachable g valid start spec, valid p.1 p.2 = true := by
  refine bfsReachLoop_valid g valid spec 2000 [start] [start] ?_
  intro p hp
  rw [List.mem_singleton] at hp
  rw [hp]
  exact hstart

theorem pick_fold_mem (mid : Int) :
    ∀ (rest : List Pos) (q : Pos),
      rest.foldl (fun best r =>
        if (r.2 - mid).natAbs < (best.2 - mid).natAbs then r else best) q ∈ q :: rest := by
  intro rest
  induction rest with
  | nil => intro q; simp
  | cons r rest2 ih =>
    intro q
    rw [List.foldl_cons]
    have h := ih (if (r.2 - mid).natAbs < (q.2 - mid).natAbs then r else q)
    rcases List.mem_cons.mp h with h2 | h2
    · rw [h2]
      split
      · simp
      · simp
    · simp [h2]

theorem pickMinByAbs_mem (mid : Int) (l : List Pos) (p : Pos)
    (h : pickMinByAbs mid l = some p) : p ∈ l := by
  cases l with
  | nil => simp [pickMinByAbs] at h
  | cons q rest =>
    simp only [pickMinByAbs, Option.some.injEq] at h
    rw [← h]
    exact pick_fold_mem mid rest q

theorem insertByX_mem (p : Pos) :
    ∀ (l : List Pos) (q : Pos), q ∈ insertByX p l → q = p ∨ q ∈ l := by
  intro l
  induction l with
  | nil => intro q hq; simp [insertByX] at hq; simp [hq]
  | cons r rest ih =>
    intro q hq
    unfold insertByX at hq
    split at hq
    · rcases List.mem_cons.mp hq with h2 | h2
      · simp [h2]
      · rcases ih q h2 with h3 | h3
        · simp [h3]
        · simp [h3]
    · rcases List.mem_cons.mp hq with h2 | h2
      · simp [h2]
      · simp [h2]

theorem sortByX_mem (l : List Pos) (q : Pos) (hq : q ∈ sortByX l) : q ∈ l := by
  unfold sortByX at hq
  induction l generalizing q with
  | nil => simpa using hq
  | cons r rest ih =>
    rw [List.foldr_cons] at hq
    rcases insertByX_mem r _ q hq with h2 | h2
    · simp [h2]
    · have := ih q h2
      simp [this]

theorem dedupFirst_mem (l : List Pos) (q : Pos) (hq : q ∈ dedupFirst l) : q ∈ l := by
  unfold dedupFirst at hq
  have hgen : ∀ (l2 : List Pos) (acc : List Pos), q ∈ l2.foldl
      (fun acc2 p => if acc2.contains p then acc2 else acc2 ++ [p]) acc →
      q ∈ acc ∨ q ∈ l2 := by
    intro l2
    induction l2 with
    | nil => intro acc h; exact Or.inl h
    | cons p rest ih =>
      intro acc h
      rw [List.foldl_cons] at h
      rcases ih _ h with h2 | h2
      · split at h2
        · exact Or.inl h2
        · rw [List.mem_append] at h2
          rcases h2 with h3 | h3
          · exact Or.inl h3
          · rw [List.mem_singleton] at h3
            simp [h3]
      · simp [h2]
  rcases hgen l [] hq with h2 | h2
  · simp at h2
  · exact h2

/-- Positions on the rect boundary produced by the seam-candidate scans:
they are valid (hence standable) positions of the original grid, and they
lie inside the rect box whenever the rect is nondegenerate. -/
theorem findSeams_props (g : SemanticGrid32) (rect : RefineRect) (cfg : PlayerConfig)
    (spec : MovementSpec) (seamE seamX : Pos)
    (h : findSeams g rect cfg spec = (some seamE, some seamX)) :
    (validAt cfg g seamE.1 seamE.2 = true ∧ validAt cfg g seamX.1 seamX.2 = true) ∧
    (rect.x ≤ rect.rightCol → rect.y ≤ rect.bottom →
      (rect.x ≤ seamE.1 ∧ seamE.1 ≤ rect.rightCol ∧ rect.y ≤ seamE.2 ∧ seamE.2 ≤ rect.bottom) ∧
      (rect.x ≤ seamX.1 ∧ seamX.1 ≤ rect.rightCol ∧ rect.y ≤ seamX.2 ∧ seamX.2 ≤ rect.bottom)) := by
  unfold findSeams at h
  cases hflag : findFlag g Cell.START with
  | none => rw [hflag] at h; simp at h
  | some start =>
    simp only [hflag] at h
    by_cases hv : validAt cfg g start.1 start.2 = false
    · rw [if_pos hv] at h
      simp at h
    · rw [if_neg hv] at h
      have hst : validAt cfg g start.1 start.2 = true := by
        cases hb : validAt cfg g start.1 start.2
        · exact absurd hb hv
        · rfl
      have hprops : ∀ p : Pos,
          (p ∈ (intRange rect.y (rect.bottom + 1)).filterMap fun gy =>
            if (bfsReachable g (validAt cfg g) start spec).contains ((rect.x, gy) : Pos)
            then some ((rect.x, gy) : Pos) else none) ∨
          (p ∈ (intRange rect.y (rect.bottom + 1)).filterMap fun gy =>
            if (bfsReachable g (validAt cfg g) start spec).contains ((rect.rightCol, gy) : Pos)
            then some ((rect.rightCol, gy) : Pos) else none) ∨
          (p ∈ [rect.y, rect.bottom].flatMap fun gy =>
            (intRange rect.x (rect.rightCol + 1)).filterMap fun gx =>
              if (bfsReachable g (validAt cfg g) start spec).contains ((gx, gy) : Pos)
              then some ((gx, gy) : Pos) else none) →
          validAt cfg g p.1 p.2 = true ∧
          (rect.x ≤ rect.rightCol → rect.y ≤ rect.bottom →
            rect.x ≤ p.1 ∧ p.1 ≤ rect.rightCol ∧ rect.y ≤ p.2 ∧ p.2 ≤ rect.bottom) := by
        intro p hp
        have hreach : p ∈ bfsReachable g (validAt cfg g) start spec ∧
            (rect.x ≤ rect.rightCol → rect.y ≤ rect.bottom →
              rect.x ≤ p.1 ∧ p.1 ≤ rect.rightCol ∧ rect.y ≤ p.2 ∧ p.2 ≤ rect.bottom) := by
          rcases hp with hp | hp | hp
          · rw [List.mem_filterMap] at hp
            obtain ⟨gy, hgy, hsome⟩ := hp
            have hb := mem_intRange hgy
            split at hsome
            · cases Option.some.inj hsome
              refine ⟨List.mem_of_elem_eq_true (by assumption), ?_⟩
              intro hw _
              exact ⟨le_refl _, hw, by omega, by omega⟩
            · exact absurd hsome (by simp)
          · rw [List.mem_filterMap] at hp
            obtain ⟨gy, hgy, hsome⟩ := hp
            have hb := mem_intRange hgy
            split at hsome
            · cases Option.some.inj hsome
              refine ⟨List.mem_of_elem_eq_true (by assumption), ?_⟩
              intro hw _
              exact ⟨hw, le_refl _, by omega, by omega⟩
            · exact absurd hsome (by simp)
          · rw [List.mem_flatMap] at hp
            obtain ⟨gy, hgy, hp⟩ := hp
            rw [List.mem_filterMap] at hp
            obtain ⟨gx, hgx, hsome⟩ := hp
            have hb := mem_intRange hgx
            have hgy2 : gy = rect.y ∨ gy = rect.bottom := by
              rcases List.mem_cons.mp hgy with h2 | h2
              · exact Or.inl h2
              · rw [List.mem_singleton] at h2
                exact Or.inr h2
            split at hsome
            · cases Option.some.inj hsome
              refine ⟨List.mem_of_elem_eq_true (by assumption), ?_⟩
              intro _ hh
              rcases hgy2 with h2 | h2 <;> rw [h2] <;>
                exact ⟨by omega, by omega, by omega, by omega⟩
            · exact absurd hsome (by simp)
        exact ⟨bfsReachable_valid g (validAt cfg g) start spec hst p hreach.1, hreach.2⟩
      split at h
      · -- fallback branch
        rename_i hone
        split at h
        · -- head? and getLast? both some
          rename_i c0 cN hhead hlast
          have hc0 : c0 ∈ sortByX (dedupFirst _) := List.mem_of_mem_head? hhead
          have hcN : cN ∈ sortByX (dedupFirst _) := List.mem_of_mem_getLast? hlast
          rw [Prod.mk.injEq] at h
          obtain ⟨he, hx⟩ := h
          have hmemE : validAt cfg g seamE.1 seamE.2 = true ∧
              (rect.x ≤ rect.rightCol → rect.y ≤ rect.bottom →
                rect.x ≤ seamE.1 ∧ seamE.1 ≤ rect.rightCol ∧
                rect.y ≤ seamE.2 ∧ seamE.2 ≤ rect.bottom) := by
            split at he
            · have hceq : c0 = seamE := Option.some.inj he
              rw [hceq] at hc0
              refine hprops seamE ?_
              have := dedupFirst_mem _ seamE (sortByX_mem _ seamE hc0)
              simpa [List.mem_append] using this
            · rename_i hnn
              have hpick := pickMinByAbs_mem _ _ seamE he
              exact hprops seamE (Or.inl hpick)
          have hmemX : validAt cfg g seamX.1 seamX.2 = true ∧
              (rect.x ≤ rect.rightCol → rect.y ≤ rect.bottom →
                rect.x ≤ seamX.1 ∧ seamX.1 ≤ rect.rightCol ∧
                rect.y ≤ seamX.2 ∧ seamX.2 ≤ rect.bottom) := by
            split at hx
            · have hceq : cN = seamX := Option.some.inj hx
              rw [hceq] at hcN
              refine hprops seamX ?_
              have := dedupFirst_mem _ seamX (sortByX_mem _ seamX hcN)
              simpa [List.mem_append] using this
            · rename_i hnn
              have hpick := pickMinByAbs_mem _ _ seamX hx
              exact hprops seamX (Or.inr (Or.inl hpick))
          refine ⟨⟨hmemE.1, hmemX.1⟩, fun hw hh => ⟨hmemE.2 hw hh, hmemX.2 hw hh⟩⟩
        · -- head?/getLast? not both some: result is (e0, x0) with one isNone
          rw [Prod.mk.injEq] at h
          obtain ⟨he, hx⟩ := h
          rcases hone with hone | hone
          · rw [he] at hone
            simp at hone
          · rw [hx] at hone
            simp at hone
      · -- preferred branch: both picks succeeded
        rw [Prod.mk.injEq] at h
        obtain ⟨he, hx⟩ := h
        have hmemE := hprops seamE (Or.inl (pickMinByAbs_mem _ _ seamE he))
        have hmemX := hprops seamX (Or.inr (Or.inl (pickMinByAbs_mem _ _ seamX hx)))
        refine ⟨⟨hmemE.1, hmemX.1⟩, fun hw hh => ⟨hmemE.2 hw hh, hmemX.2 hw hh⟩⟩

/-! ## Cell tracking through one refinement attempt (claims C2 and C5) -/

theorem randint_fst_ge (s : RandStream) (i : Nat) (a b : Int) :
    a ≤ (randint s i a b).1 := by
  unfold randint
  split
  · rename_i hab
    have h0 : 0 ≤ Int.emod (Int.ofNat (s i)) (b - a + 1) := Int.emod_nonneg _ (by omega)
    omega
  · omega

theorem innerStepTry_some_not_rejected (s : RandStream) (knobs : GeneratorKnobs)
    (spec : MovementSpec) (rect : RefineRect) (fhs : List Foothold) (prev : Foothold)
    (target_x min_dx max_up max_down eff_max_w : Int) :
    ∀ (fuel i : Nat) (fh : Foothold) (i2 : Nat),
      innerStepTry s knobs spec rect fhs prev target_x min_dx max_up max_down eff_max_w
        i fuel = some (fh, i2) →
      innerRejected rect fhs fh = false ∧ knobs.min_foothold_width ≤ fh.width := by
  intro fuel
  induction fuel with
  | zero => intro i fh i2 h; simp [innerStepTry] at h
  | succ fuel ih =>
    intro i fh i2 h
    simp only [innerStepTry] at h
    split at h
    · exact absurd h (by simp)
    · split at h <;> split at h <;>
        first
          | exact ih _ fh i2 h
          | (cases h; exact ⟨by simp_all, randint_fst_ge s _ _ _⟩)

theorem innerLoop_inv (s : RandStream) (knobs : GeneratorKnobs) (spec : MovementSpec)
    (rect : RefineRect) (target n : Int) (e : Foothold) :
    ∀ (steps : List Int) (fhs : List Foothold) (i : Nat) (out : List Foothold) (i2 : Nat),
      innerLoop s knobs spec rect target n steps fhs i = some (out, i2) →
      e ∈ fhs →
      out.head? = fhs.head? ∧ e ∈ out ∧
      ∀ fh ∈ out, fh ∈ fhs ∨ innerOkFrom rect knobs.min_foothold_width e fh := by
  intro steps
  induction steps with
  | nil =>
    intro fhs i out i2 h he
    simp only [innerLoop] at h
    cases h
    exact ⟨rfl, he, fun fh hf => Or.inl hf⟩
  | cons st rest ih =>
    intro fhs i out i2 h he
    simp only [innerLoop] at h
    cases hlast : fhs.getLast? with
    | none => simp [hlast] at h
    | some prev =>
      simp only [hlast] at h
      cases htry : innerStepTry s knobs spec rect fhs prev target
          (min (max (minDxForProgress prev.x (n - st + 1) target spec.max_jump_distance)
            (max (diffMin knobs spec) 1)) spec.max_jump_distance)
          (maxUpOf knobs spec) (maxDownOf knobs spec) (effMaxW knobs) i MAX_STEP_TRIES with
      | none => simp [htry] at h
      | some pr =>
        obtain ⟨fh2, i3⟩ := pr
        simp only [htry] at h
        have hne : fhs ≠ [] := by
          intro hnil; rw [hnil] at hlast; simp at hlast
        obtain ⟨hrej, hwid⟩ := innerStepTry_some_not_rejected s knobs spec rect fhs prev
          _ _ _ _ _ _ _ _ _ htry
        obtain ⟨h1, h2, h3⟩ := ih (fhs ++ [fh2]) i3 out i2 h (by simp [he])
        refine ⟨h1.trans (head_append_singleton fhs fh2 hne), h2, ?_⟩
        intro fh hf
        rcases h3 fh hf with h4 | h4
        · rw [List.mem_append] at h4
          rcases h4 with h4 | h4
          · exact Or.inl h4
          · rw [List.mem_singleton] at h4
            subst h4
            right
            unfold innerRejected at hrej
            simp only [Bool.or_eq_false_iff, decide_eq_false_iff_not, not_lt,
              Bool.not_eq_false] at hrej
            obtain ⟨⟨⟨⟨hb1, hb2⟩, hb3⟩, hb4⟩, hb5⟩ := hrej
            have hpair : clearanceOkPair e fh = true := by
              have hb5' : clearanceOk fhs fh = true := by
                cases hb : clearanceOk fhs fh
                · rw [hb] at hb5; simp at hb5
                · rfl
              unfold clearanceOk at hb5'
              rw [List.all_eq_true] at hb5'
              exact hb5' e he
            exact ⟨hb1, hb2, hb3, hb4, hwid, hpair⟩
        · exact Or.inr h4

theorem clearanceOk_pair_of_mem (l : List Foothold) (nf q : Foothold) (hq : q ∈ l)
    (h : ¬clearanceOk l nf = false) : clearanceOkPair q nf = true := by
  have ht : clearanceOk l nf = true := by
    cases hb : clearanceOk l nf
    · exact absurd hb h
    · rfl
  unfold clearanceOk at ht
  rw [List.all_eq_true] at ht
  exact ht q hq

theorem genInner_some (s : RandStream) (knobs : GeneratorKnobs) (spec : MovementSpec)
    (rect : RefineRect) (entry exitP : Pos) (i0 : Nat) (fhs : List Foothold) (i : Nat)
    (h : genInner s knobs spec rect entry exitP i0 = some (fhs, i)) :
    ∃ (eFh xFh : Foothold) (body : List Foothold),
      fhs = eFh :: body ++ [xFh] ∧
      eFh.x = entry.1 ∧ eFh.y = entry.2 ∧
      (∃ r : Int, eFh.width = min (max knobs.min_foothold_width r)
        (rect.rightCol - entry.1 + 1)) ∧
      xFh.y = exitP.2 ∧ xFh.x = exitP.1 - xFh.width + 1 ∧
      (∃ r : Int, xFh.width = max 1 (min (max knobs.min_foothold_width r)
        (exitP.1 - rect.x + 1))) ∧
      (∀ fh ∈ body, fh = eFh ∨ innerOkFrom rect knobs.min_foothold_width eFh fh) ∧
      clearanceOkPair eFh xFh = true ∧
      entry.1 < exitP.1 := by
  simp only [genInner] at h
  split at h
  · exact absurd h (by simp)
  · rename_i hdx
    split at h
    · exact absurd h (by simp)
    · rename_i fhs1 i1 hloop
      split at h
      · exact absurd h (by simp)
      · rename_i last hlastEq
        split at h
        · exact absurd h (by simp)
        · split at h
          · exact absurd h (by simp)
          · split at h
            · exact absurd h (by simp)
            · split at h
              · exact absurd h (by simp)
              · rename_i hclear
                cases h
                obtain ⟨hhead, hemem, hall⟩ :=
                  innerLoop_inv s knobs spec rect exitP.1 _ _ _ _ _ _ _ hloop
                    (List.mem_singleton.mpr rfl)
                cases fhs1 with
                | nil => simp at hhead
                | cons a body =>
                  simp only [List.head?_cons, List.head?, Option.some.injEq] at hhead
                  subst hhead
                  refine ⟨_, _, body, rfl, rfl, rfl, ⟨_, rfl⟩, rfl, rfl, ⟨_, rfl⟩,
                    ?_, ?_, by omega⟩
                  · intro fh hf
                    rcases hall fh (by simp [hf]) with h4 | h4
                    · rw [List.mem_singleton] at h4
                      exact Or.inl h4
                    · exact Or.inr h4
                  · exact clearanceOk_pair_of_mem _ _ _ hemem hclear

theorem or_zero_iff_nat (a b : Nat) : a ||| b = 0 ↔ a = 0 ∧ b = 0 := by
  constructor
  · intro h
    constructor
    · by_contra ha
      obtain ⟨k, hk⟩ := Nat.exists_most_significant_bit ha
      have := Nat.testBit_or a b k
      rw [h] at this
      simp [hk.1] at this
    · by_contra hb
      obtain ⟨k, hk⟩ := Nat.exists_most_significant_bit hb
      have := Nat.testBit_or a b k
      rw [h] at this
      simp [hk.1] at this
  · rintro ⟨rfl, rfl⟩
    rfl

theorem and_mask_keep_zero (v m : Nat) (h : v &&& 1 = 0) : (v &&& m) &&& 1 = 0 := by
  rw [Nat.and_assoc, Nat.and_comm m 1, ← Nat.and_assoc, h, Nat.zero_and]

theorem or_mask_keep_one (v f : Nat) (h : v &&& 1 ≠ 0) : ((v ||| f) &&& 255) &&& 1 ≠ 0 := by
  rw [Nat.and_assoc]
  show (v ||| f) &&& 1 ≠ 0
  rw [Nat.and_distrib_right]
  intro hc
  rw [or_zero_iff_nat] at hc
  exact h hc.1

theorem or_one_mask_one (v : Nat) : ((v ||| 1) &&& 255) &&& 1 ≠ 0 := by
  rw [Nat.and_assoc]
  show (v ||| 1) &&& 1 ≠ 0
  rw [Nat.and_distrib_right]
  intro hc
  rw [or_zero_iff_nat] at hc
  exact absurd hc.2 (by decide)

theorem fdiv_two_bounds (w : Int) (hw : 1 ≤ w) : 0 ≤ Int.fdiv w 2 ∧ Int.fdiv w 2 ≤ w - 1 := by
  rw [Int.fdiv_eq_ediv _ (by omega)]
  omega

theorem foldl_establish {α β : Type} (P : α → Prop) (f : α → β → α) :
    ∀ (l : List β) (b : β), b ∈ l → (∀ a, P (f a b)) → (∀ a c, P a → P (f a c)) →
      ∀ a, P (l.foldl f a) := by
  intro l
  induction l with
  | nil => intro b hb; simp at hb
  | cons c rest ih =>
    intro b hb hset hpres a
    rw [List.foldl_cons]
    rcases List.mem_cons.mp hb with hb | hb
    · subst hb
      exact foldl_preserve P f (fun a2 b2 => hpres a2 b2) rest (f a b) (hset a)
    · exact ih b hb hset hpres (f a c)

namespace SemanticGrid32

theorem get_addFlags_self (g : SemanticGrid32) (x y : Int) (f : Nat) :
    (g.addFlags x y f).get x y = (g.get x y ||| f) &&& 255 := by
  simp [get, addFlags]

theorem get_removeFlags_self (g : SemanticGrid32) (x y : Int) (f : Nat) :
    (g.removeFlags x y f).get x y = g.get x y &&& (255 ^^^ (f &&& 255)) := by
  simp [get, removeFlags]

/-- `removeFlags` anywhere keeps a SOLID-free cell SOLID-free. -/
theorem removeFlags_keeps_free (g : SemanticGrid32) (x y : Int) (f : Nat) (a b : Int)
    (h : g.get a b &&& 1 = 0) : (g.removeFlags x y f).get a b &&& 1 = 0 := by
  by_cases hc : a = x ∧ b = y
  · obtain ⟨rfl, rfl⟩ := hc
    rw [get_removeFlags_self]
    exact and_mask_keep_zero _ _ h
  · rw [get_removeFlags_other g x y f a b hc]
    exact h

/-- `addFlags` anywhere keeps a SOLID cell SOLID. -/
theorem addFlags_keeps_solid (g : SemanticGrid32) (x y : Int) (f : Nat) (a b : Int)
    (h : g.get a b &&& 1 ≠ 0) : (g.addFlags x y f).get a b &&& 1 ≠ 0 := by
  by_cases hc : a = x ∧ b = y
  · obtain ⟨rfl, rfl⟩ := hc
    rw [get_addFlags_self]
    exact or_mask_keep_one _ _ h
  · rw [get_addFlags_other g x y f a b hc]
    exact h

/-- A `set` whose stored byte is SOLID-free keeps any SOLID-free cell
SOLID-free. -/
theorem set_keeps_free (g : SemanticGrid32) (x y : Int) (f : Nat)
    (hf : f &&& 255 &&& 1 = 0) (a b : Int) (h : g.get a b &&& 1 = 0) :
    (g.set x y f).get a b &&& 1 = 0 := by
  by_cases hc : a = x ∧ b = y
  · obtain ⟨rfl, rfl⟩ := hc
    rw [get_set_self]
    exact hf
  · rw [get_set_other g x y f a b hc]
    exact h

end SemanticGrid32

theorem mem_rectCells (rect : RefineRect) (p : Int × Int) (hp : p ∈ rectCells rect) :
    rect.x ≤ p.1 ∧ p.1 ≤ rect.rightCol ∧ rect.y ≤ p.2 ∧ p.2 ≤ rect.bottom := by
  unfold rectCells at hp
  rw [List.mem_flatMap] at hp
  obtain ⟨ry, hry, hp⟩ := hp
  rw [List.mem_map] at hp
  obtain ⟨rx, hrx, rfl⟩ := hp
  have h1 := mem_intRange hry
  have h2 := mem_intRange hrx
  exact ⟨h2.1, by omega, h1.1, by omega⟩

theorem rectCells_mem (rect : RefineRect) (cx cy : Int)
    (h1 : rect.x ≤ cx) (h2 : cx ≤ rect.rightCol) (h3 : rect.y ≤ cy) (h4 : cy ≤ rect.bottom) :
    ((cx, cy) : Int × Int) ∈ rectCells rect := by
  unfold rectCells
  rw [List.mem_flatMap]
  refine ⟨cy, intRange_mem h3 (by omega), ?_⟩
  rw [List.mem_map]
  exact ⟨cx, intRange_mem h1 (by omega), rfl⟩

/-- Inside the rect, `_clear_rect` zeroes the cell. -/
theorem clearRect_get_inside (g : SemanticGrid32) (rect : RefineRect) (cx cy : Int)
    (h1 : rect.x ≤ cx) (h2 : cx ≤ rect.rightCol) (h3 : rect.y ≤ cy) (h4 : cy ≤ rect.bottom) :
    (clearRect g rect).get cx cy = 0 := by
  unfold clearRect
  refine foldl_establish (fun g2 => g2.get cx cy = 0)
    (fun g2 p => g2.set p.1 p.2 Cell.EMPTY) (rectCells rect) ((cx, cy) : Int × Int)
    (rectCells_mem rect cx cy h1 h2 h3 h4) (fun g2 => ?_) (fun g2 q hq => ?_) g
  · show (g2.set cx cy Cell.EMPTY).get cx cy = 0
    rw [SemanticGrid32.get_set_self]
    rfl
  · show (g2.set q.1 q.2 Cell.EMPTY).get cx cy = 0
    by_cases hc : cx = q.1 ∧ cy = q.2
    · obtain ⟨hc1, hc2⟩ := hc
      rw [hc1, hc2, SemanticGrid32.get_set_self]
      rfl
    · rw [SemanticGrid32.get_set_other _ _ _ _ _ _ hc]
      exact hq

/-- Outside the rect, `_clear_rect` does not touch the cell. -/
theorem clearRect_get_outside (g : SemanticGrid32) (rect : RefineRect) (cx cy : Int)
    (hout : ¬(rect.x ≤ cx ∧ cx ≤ rect.rightCol ∧ rect.y ≤ cy ∧ cy ≤ rect.bottom)) :
    (clearRect g rect).get cx cy = g.get cx cy := by
  unfold clearRect
  refine foldl_get_eq_mem _ cx cy (rectCells rect) (fun g2 p hp => ?_) g
  have hb := mem_rectCells rect p hp
  refine SemanticGrid32.get_set_other _ _ _ _ _ _ ?_
  rintro ⟨rfl, rfl⟩
  exact hout ⟨hb.1, hb.2.1, hb.2.2.1, hb.2.2.2⟩

/-- If two footholds share a column, a pairwise clearance pass forbids
either surface row from lying in the other's clearance band. -/
theorem pair_bands (e fh : Foothold) (hp : clearanceOkPair e fh = true)
    (c : Int) (hc1 : c ∈ fh.xCols) (hc2 : c ∈ e.xCols) :
    ¬(e.clearLo ≤ fh.surfaceY ∧ fh.surfaceY ≤ e.clearHi) ∧
    ¬(fh.clearLo ≤ e.surfaceY ∧ e.surfaceY ≤ fh.clearHi) := by
  unfold clearanceOkPair at hp
  have hov : (fh.xCols.any fun c2 => e.xCols.contains c2) = true := by
    rw [List.any_eq_true]
    exact ⟨c, hc1, List.elem_eq_true_of_mem hc2⟩
  rw [hov] at hp
  simp only [Bool.not_true, Bool.false_eq_true, if_false] at hp
  split at hp
  · exact absurd hp (by simp)
  · split at hp
    · exact absurd hp (by simp)
    · rename_i hb1 hb2
      exact ⟨hb1, hb2⟩

theorem surfaceStep_get_other (rect : RefineRect) (fh : Foothold)
    (acc : SemanticGrid32 × List (Int × Int)) (fx cx cy : Int)
    (hne : ¬(cx = fx ∧ cy = fh.surfaceY)) :
    (innerSurfaceStep rect fh acc fx).1.get cx cy = acc.1.get cx cy := by
  unfold innerSurfaceStep
  split
  · exact SemanticGrid32.get_addFlags_other _ _ _ _ _ _ hne
  · rfl

theorem surfaceStep_keeps (rect : RefineRect) (fh : Foothold)
    (acc : SemanticGrid32 × List (Int × Int)) (fx cx cy : Int)
    (hp : acc.1.get cx cy &&& 1 ≠ 0 ∧ ((cx, cy) : Int × Int) ∈ acc.2) :
    (innerSurfaceStep rect fh acc fx).1.get cx cy &&& 1 ≠ 0 ∧
      ((cx, cy) : Int × Int) ∈ (innerSurfaceStep rect fh acc fx).2 := by
  unfold innerSurfaceStep
  split
  · exact ⟨SemanticGrid32.addFlags_keeps_solid _ _ _ _ _ _ hp.1, by simp [hp.2]⟩
  · exact hp

theorem surfaceFold_no_write (rect : RefineRect) (fhs : List Foothold) (cx cy : Int)
    (hno : ∀ fh ∈ fhs, ¬(cy = fh.surfaceY ∧ cx ∈ fh.xCols)) :
    ∀ acc : SemanticGrid32 × List (Int × Int), ((fhs.foldl (fun acc fh => fh.xCols.foldl (innerSurfaceStep rect fh) acc)
      acc).1.get cx cy) = acc.1.get cx cy := by
  intro acc
  refine foldl_get_eq_mem_pair _ cx cy fhs (fun a fh hfh => ?_) acc
  refine foldl_get_eq_mem_pair _ cx cy fh.xCols (fun a2 fx hfx => ?_) a
  refine surfaceStep_get_other rect fh a2 fx cx cy ?_
  rintro ⟨rfl, hcy⟩
  exact hno fh hfh ⟨hcy, hfx⟩

theorem surfaceFold_frame (rect : RefineRect) (fhs : List Foothold) (cx cy : Int)
    (hout : ¬(rect.x ≤ cx ∧ cx ≤ rect.rightCol ∧ rect.y ≤ cy ∧ cy ≤ rect.bottom)) :
    ∀ acc : SemanticGrid32 × List (Int × Int), ((fhs.foldl (fun acc fh => fh.xCols.foldl (innerSurfaceStep rect fh) acc)
      acc).1.get cx cy) = acc.1.get cx cy := by
  intro acc
  refine foldl_get_eq_mem_pair _ cx cy fhs (fun a fh _ => ?_) acc
  refine foldl_get_eq_mem_pair _ cx cy fh.xCols (fun a2 fx _ => ?_) a
  unfold innerSurfaceStep
  split
  · rename_i hin
    refine SemanticGrid32.get_addFlags_other _ _ _ _ _ _ ?_
    rintro ⟨rfl, rfl⟩
    exact hout ⟨hin.1, hin.2.1, hin.2.2.1, hin.2.2.2⟩
  · rfl

theorem surfaceFold_establish (rect : RefineRect) (eFh : Foothold) (rest : List Foothold)
    (cx cy : Int) (hcx : cx ∈ eFh.xCols) (hcy : cy = eFh.surfaceY)
    (h1 : rect.x ≤ cx) (h2 : cx ≤ rect.rightCol) (h3 : rect.y ≤ cy) (h4 : cy ≤ rect.bottom) :
    ∀ acc : SemanticGrid32 × List (Int × Int), (((eFh :: rest).foldl
        (fun acc fh => fh.xCols.foldl (innerSurfaceStep rect fh) acc) acc).1.get cx cy
        &&& 1 ≠ 0) ∧
      ((cx, cy) : Int × Int) ∈ ((eFh :: rest).foldl
        (fun acc fh => fh.xCols.foldl (innerSurfaceStep rect fh) acc) acc).2 := by
  intro acc
  rw [List.foldl_cons]
  have hP : ∀ (l : List Foothold) (a : SemanticGrid32 × List (Int × Int)),
      (a.1.get cx cy &&& 1 ≠ 0 ∧ ((cx, cy) : Int × Int) ∈ a.2) →
      ((l.foldl (fun acc fh => fh.xCols.foldl (innerSurfaceStep rect fh) acc) a).1.get cx cy
        &&& 1 ≠ 0) ∧
      ((cx, cy) : Int × Int) ∈ (l.foldl
        (fun acc fh => fh.xCols.foldl (innerSurfaceStep rect fh) acc) a).2 := by
    refine foldl_preserve _ _ (fun a fh ha => ?_)
    exact foldl_preserve
      (fun a2 => a2.1.get cx cy &&& 1 ≠ 0 ∧ ((cx, cy) : Int × Int) ∈ a2.2)
      (innerSurfaceStep rect fh) (fun a2 fx ha2 => surfaceStep_keeps rect fh a2 fx cx cy ha2)
      fh.xCols a ha
  refine hP rest _ ?_
  refine foldl_establish
    (fun a2 => a2.1.get cx cy &&& 1 ≠ 0 ∧ ((cx, cy) : Int × Int) ∈ a2.2)
    (innerSurfaceStep rect eFh) eFh.xCols cx hcx (fun a2 => ?_)
    (fun a2 fx ha2 => surfaceStep_keeps rect eFh a2 fx cx cy ha2) acc
  show (innerSurfaceStep rect eFh a2 cx).1.get cx cy &&& 1 ≠ 0 ∧
    ((cx, cy) : Int × Int) ∈ (innerSurfaceStep rect eFh a2 cx).2
  unfold innerSurfaceStep
  rw [if_pos ⟨h1, h2, by omega, by omega⟩]
  subst hcy
  exact ⟨by rw [SemanticGrid32.get_addFlags_self]; exact or_one_mask_one _, by simp⟩

theorem clearStep_skip_mem (rect : RefineRect) (surf : List (Int × Int))
    (g2 : SemanticGrid32) (p : Int × Int) (cx cy : Int)
    (hmem : ((cx, cy) : Int × Int) ∈ surf) :
    (innerClearStep rect surf g2 p).get cx cy = g2.get cx cy := by
  unfold innerClearStep
  split
  · rename_i hin
    refine SemanticGrid32.get_removeFlags_other _ _ _ _ _ _ ?_
    rintro ⟨rfl, rfl⟩
    have hthis := hin.2.2.2.2
    have hm2 : surf.contains p = true := by
      cases p
      exact List.elem_eq_true_of_mem hmem
    rw [hm2] at hthis
    simp at hthis
  · rfl

theorem clearStep_keeps_free (rect : RefineRect) (surf : List (Int × Int))
    (g2 : SemanticGrid32) (p : Int × Int) (cx cy : Int)
    (h : g2.get cx cy &&& 1 = 0) :
    (innerClearStep rect surf g2 p).get cx cy &&& 1 = 0 := by
  unfold innerClearStep
  split
  · exact SemanticGrid32.removeFlags_keeps_free _ _ _ _ _ _ h
  · exact h

theorem clearStep_frame (rect : RefineRect) (surf : List (Int × Int))
    (g2 : SemanticGrid32) (p : Int × Int) (cx cy : Int)
    (hout : ¬(rect.x ≤ cx ∧ cx ≤ rect.rightCol ∧ rect.y ≤ cy ∧ cy ≤ rect.bottom)) :
    (innerClearStep rect surf g2 p).get cx cy = g2.get cx cy := by
  unfold innerClearStep
  split
  · rename_i hin
    refine SemanticGrid32.get_removeFlags_other _ _ _ _ _ _ ?_
    rintro ⟨rfl, rfl⟩
    exact hout ⟨hin.1, hin.2.1, hin.2.2.1, hin.2.2.2.1⟩
  · rfl

theorem clearFold_skip_mem (rect : RefineRect) (surf : List (Int × Int))
    (fhs : List Foothold) (cx cy : Int) (hmem : ((cx, cy) : Int × Int) ∈ surf) :
    ∀ g2 : SemanticGrid32,
      (fhs.foldl (fun g2 fh =>
        (fh.xCols.flatMap fun x => fh.clearanceRows.map fun r => (x, r)).foldl
          (innerClearStep rect surf) g2) g2).get cx cy = g2.get cx cy := by
  intro g2
  refine foldl_get_eq_mem _ cx cy fhs (fun a fh _ => ?_) g2
  refine foldl_get_eq_mem _ cx cy _ (fun a2 p _ => ?_) a
  exact clearStep_skip_mem rect surf a2 p cx cy hmem

theorem clearFold_keeps_free (rect : RefineRect) (surf : List (Int × Int))
    (fhs : List Foothold) (cx cy : Int) :
    ∀ g2 : SemanticGrid32, g2.get cx cy &&& 1 = 0 →
      (fhs.foldl (fun g2 fh =>
        (fh.xCols.flatMap fun x => fh.clearanceRows.map fun r => (x, r)).foldl
          (innerClearStep rect surf) g2) g2).get cx cy &&& 1 = 0 := by
  intro g2 h
  refine foldl_preserve (fun a => a.get cx cy &&& 1 = 0) _ (fun a fh ha => ?_) fhs g2 h
  exact foldl_preserve (fun a2 => a2.get cx cy &&& 1 = 0) _
    (fun a2 p ha2 => clearStep_keeps_free rect surf a2 p cx cy ha2) _ a ha

theorem clearFold_frame (rect : RefineRect) (surf : List (Int × Int))
    (fhs : List Foothold) (cx cy : Int)
    (hout : ¬(rect.x ≤ cx ∧ cx ≤ rect.rightCol ∧ rect.y ≤ cy ∧ cy ≤ rect.bottom)) :
    ∀ g2 : SemanticGrid32,
      (fhs.foldl (fun g2 fh =>
        (fh.xCols.flatMap fun x => fh.clearanceRows.map fun r => (x, r)).foldl
          (innerClearStep rect surf) g2) g2).get cx cy = g2.get cx cy := by
  intro g2
  refine foldl_get_eq_mem _ cx cy fhs (fun a fh _ => ?_) g2
  refine foldl_get_eq_mem _ cx cy _ (fun a2 p _ => ?_) a
  exact clearStep_frame rect surf a2 p cx cy hout

theorem paint_frame (g : SemanticGrid32) (fhs : List Foothold) (rect : RefineRect)
    (cx cy : Int)
    (hout : ¬(rect.x ≤ cx ∧ cx ≤ rect.rightCol ∧ rect.y ≤ cy ∧ cy ≤ rect.bottom)) :
    (paintInnerFootholds g fhs rect).get cx cy = g.get cx cy := by
  simp only [paintInnerFootholds]
  rw [clearFold_frame rect _ fhs cx cy hout _, surfaceFold_frame rect fhs cx cy hout _]

theorem paint_keeps_free (g : SemanticGrid32) (fhs : List Foothold) (rect : RefineRect)
    (cx cy : Int)
    (hno : ∀ fh ∈ fhs, ¬(cy = fh.surfaceY ∧ cx ∈ fh.xCols))
    (hfree : g.get cx cy &&& 1 = 0) :
    (paintInnerFootholds g fhs rect).get cx cy &&& 1 = 0 := by
  simp only [paintInnerFootholds]
  refine clearFold_keeps_free rect _ fhs cx cy _ ?_
  rw [surfaceFold_no_write rect fhs cx cy hno _]
  exact hfree

theorem paint_floor_solid (g : SemanticGrid32) (eFh : Foothold) (rest : List Foothold)
    (rect : RefineRect) (cx cy : Int) (hcx : cx ∈ eFh.xCols) (hcy : cy = eFh.surfaceY)
    (h1 : rect.x ≤ cx) (h2 : cx ≤ rect.rightCol) (h3 : rect.y ≤ cy) (h4 : cy ≤ rect.bottom) :
    (paintInnerFootholds g (eFh :: rest) rect).get cx cy &&& 1 ≠ 0 := by
  simp only [paintInnerFootholds]
  obtain ⟨hbit, hmem⟩ := surfaceFold_establish rect eFh rest cx cy hcx hcy h1 h2 h3 h4 (g, [])
  rw [clearFold_skip_mem rect _ (eFh :: rest) cx cy hmem _]
  exact hbit

theorem clearanceRows_band (fh : Foothold) (r : Int) (hr : r ∈ fh.clearanceRows) :
    fh.clearLo ≤ r ∧ r ≤ fh.clearHi := by
  unfold Foothold.clearanceRows at hr
  have := mem_intRange hr
  unfold Foothold.clearLo Foothold.clearHi
  omega

theorem paintSecret_keeps_feet (g : SemanticGrid32) (secret : Foothold) (rect : RefineRect)
    (eFh : Foothold) (hp : clearanceOkPair eFh secret = true) (fx : Int)
    (hcx : fx ∈ eFh.xCols) (hfree : g.get fx eFh.y &&& 1 = 0) :
    (paintSecret g secret rect).get fx eFh.y &&& 1 = 0 := by
  have haddF : ∀ (g2 : SemanticGrid32) (c : Int), c ∈ secret.xCols →
      (if rect.x ≤ c ∧ c ≤ rect.rightCol ∧ rect.y ≤ secret.surfaceY ∧
          secret.surfaceY ≤ rect.bottom
       then g2.addFlags c secret.surfaceY Cell.SOLID else g2).get fx eFh.y
        = g2.get fx eFh.y := by
    intro g2 c hc
    split
    · refine SemanticGrid32.get_addFlags_other _ _ _ _ _ _ ?_
      rintro ⟨rfl, hrow⟩
      have hb := (pair_bands eFh secret hp fx hc hcx).1
      unfold Foothold.clearLo Foothold.clearHi PLAYER_HEIGHT at hb
      unfold Foothold.surfaceY at hrow hb
      exact hb ⟨by omega, by omega⟩
    · rfl
  have hremF : ∀ (g2 : SemanticGrid32) (p : Int × Int), g2.get fx eFh.y &&& 1 = 0 →
      (if rect.x ≤ p.1 ∧ p.1 ≤ rect.rightCol ∧ rect.y ≤ p.2 ∧ p.2 ≤ rect.bottom
       then g2.removeFlags p.1 p.2 Cell.SOLID else g2).get fx eFh.y &&& 1 = 0 := by
    intro g2 p h2
    split
    · exact SemanticGrid32.removeFlags_keeps_free _ _ _ _ _ _ h2
    · exact h2
  refine foldl_preserve (fun g2 : SemanticGrid32 => g2.get fx eFh.y &&& 1 = 0) _
    (fun g2 p h2 => hremF g2 p h2) _ _ ?_
  show (secret.xCols.foldl (fun (g2 : SemanticGrid32) (c : Int) =>
    if rect.x ≤ c ∧ c ≤ rect.rightCol ∧ rect.y ≤ secret.surfaceY ∧
        secret.surfaceY ≤ rect.bottom
    then g2.addFlags c secret.surfaceY Cell.SOLID else g2) g).get fx eFh.y &&& 1 = 0
  rw [foldl_get_eq_mem _ fx eFh.y secret.xCols (fun g2 c hc => haddF g2 c hc) g]
  exact hfree

theorem paintSecret_keeps_floor (g : SemanticGrid32) (secret : Foothold) (rect : RefineRect)
    (eFh : Foothold) (hp : clearanceOkPair eFh secret = true) (fx : Int)
    (hcx : fx ∈ eFh.xCols) (hsolid : g.get fx eFh.surfaceY &&& 1 ≠ 0) :
    (paintSecret g secret rect).get fx eFh.surfaceY &&& 1 ≠ 0 := by
  have haddS : ∀ (g2 : SemanticGrid32) (c : Int), g2.get fx eFh.surfaceY &&& 1 ≠ 0 →
      (if rect.x ≤ c ∧ c ≤ rect.rightCol ∧ rect.y ≤ secret.surfaceY ∧
          secret.surfaceY ≤ rect.bottom
       then g2.addFlags c secret.surfaceY Cell.SOLID else g2).get fx eFh.surfaceY &&& 1 ≠ 0 := by
    intro g2 c h2
    split
    · exact SemanticGrid32.addFlags_keeps_solid _ _ _ _ _ _ h2
    · exact h2
  have hremS : ∀ (g2 : SemanticGrid32) (p : Int × Int),
      p ∈ (secret.xCols.flatMap fun c => secret.clearanceRows.map fun r => (c, r)) →
      (if rect.x ≤ p.1 ∧ p.1 ≤ rect.rightCol ∧ rect.y ≤ p.2 ∧ p.2 ≤ rect.bottom
       then g2.removeFlags p.1 p.2 Cell.SOLID else g2).get fx eFh.surfaceY
        = g2.get fx eFh.surfaceY := by
    intro g2 p hpl
    split
    · refine SemanticGrid32.get_removeFlags_other _ _ _ _ _ _ ?_
      rintro ⟨hxeq, hrow⟩
      rw [List.mem_flatMap] at hpl
      obtain ⟨c, hcmem, hpl⟩ := hpl
      rw [List.mem_map] at hpl
      obtain ⟨r, hrmem, hpr⟩ := hpl
      subst hpr
      simp only at hxeq hrow
      rw [hxeq] at hcx
      have hb := (pair_bands eFh secret hp c hcmem hcx).2
      have hband := clearanceRows_band secret r hrmem
      unfold Foothold.clearLo Foothold.clearHi PLAYER_HEIGHT at hb hband
      unfold Foothold.surfaceY at hb hrow
      exact hb ⟨by omega, by omega⟩
    · rfl
  show ((secret.xCols.flatMap fun c => secret.clearanceRows.map fun r => (c, r)).foldl
    (fun (g2 : SemanticGrid32) (p : Int × Int) =>
      if rect.x ≤ p.1 ∧ p.1 ≤ rect.rightCol ∧ rect.y ≤ p.2 ∧ p.2 ≤ rect.bottom
      then g2.removeFlags p.1 p.2 Cell.SOLID else g2)
    (secret.xCols.foldl (fun (g2 : SemanticGrid32) (c : Int) =>
      if rect.x ≤ c ∧ c ≤ rect.rightCol ∧ rect.y ≤ secret.surfaceY ∧
          secret.surfaceY ≤ rect.bottom
      then g2.addFlags c secret.surfaceY Cell.SOLID else g2) g)).get fx eFh.surfaceY
    &&& 1 ≠ 0
  rw [foldl_get_eq_mem _ fx eFh.surfaceY _ (fun g2 p hpl => hremS g2 p hpl) _]
  exact foldl_preserve (fun g2 : SemanticGrid32 => g2.get fx eFh.surfaceY &&& 1 ≠ 0) _
    (fun g2 c h2 => haddS g2 c h2) secret.xCols g hsolid

theorem paintSecret_frame (g : SemanticGrid32) (secret : Foothold) (rect : RefineRect)
    (cx cy : Int)
    (hout : ¬(rect.x ≤ cx ∧ cx ≤ rect.rightCol ∧ rect.y ≤ cy ∧ cy ≤ rect.bottom)) :
    (paintSecret g secret rect).get cx cy = g.get cx cy := by
  simp only [paintSecret]
  rw [foldl_get_eq_mem _ cx cy _ (fun g2 p _ => ?_) _,
    foldl_get_eq_mem _ cx cy secret.xCols (fun g2 c _ => ?_) g]
  · show (if rect.x ≤ c ∧ c ≤ rect.rightCol ∧ rect.y ≤ secret.surfaceY ∧
        secret.surfaceY ≤ rect.bottom
      then g2.addFlags c secret.surfaceY Cell.SOLID else g2).get cx cy = g2.get cx cy
    split
    · rename_i hin
      refine SemanticGrid32.get_addFlags_other _ _ _ _ _ _ ?_
      rintro ⟨rfl, rfl⟩
      exact hout ⟨hin.1, hin.2.1, hin.2.2.1, hin.2.2.2⟩
    · rfl
  · show (if rect.x ≤ p.1 ∧ p.1 ≤ rect.rightCol ∧ rect.y ≤ p.2 ∧ p.2 ≤ rect.bottom
      then g2.removeFlags p.1 p.2 Cell.SOLID else g2).get cx cy = g2.get cx cy
    split
    · rename_i hin
      refine SemanticGrid32.get_removeFlags_other _ _ _ _ _ _ ?_
      rintro ⟨rfl, rfl⟩
      exact hout ⟨hin.1, hin.2.1, hin.2.2.1, hin.2.2.2⟩
    · rfl

theorem secretTry_keeps_feet (s : RandStream) (fhs : List Foothold) (rect : RefineRect)
    (base eFh : Foothold) (he : eFh ∈ fhs) (fx : Int) (hcx : fx ∈ eFh.xCols) :
    ∀ (fuel i : Nat) (g : SemanticGrid32), g.get fx eFh.y &&& 1 = 0 →
      (secretTry s fhs rect base g i fuel).1.get fx eFh.y &&& 1 = 0 := by
  intro fuel
  induction fuel with
  | zero => intro i g h1; exact h1
  | succ fuel ih =>
    intro i g h1
    simp only [secretTry]
    split
    · exact ih _ g h1
    · split
      · exact ih _ g h1
      · split
        · exact ih _ g h1
        · rename_i hclear
          exact paintSecret_keeps_feet g _ rect eFh
            (clearanceOk_pair_of_mem _ _ _ he hclear) fx hcx h1

theorem secretTry_keeps_floor (s : RandStream) (fhs : List Foothold) (rect : RefineRect)
    (base eFh : Foothold) (he : eFh ∈ fhs) (fx : Int) (hcx : fx ∈ eFh.xCols) :
    ∀ (fuel i : Nat) (g : SemanticGrid32), g.get fx eFh.surfaceY &&& 1 ≠ 0 →
      (secretTry s fhs rect base g i fuel).1.get fx eFh.surfaceY &&& 1 ≠ 0 := by
  intro fuel
  induction fuel with
  | zero => intro i g h2; exact h2
  | succ fuel ih =>
    intro i g h2
    simp only [secretTry]
    split
    · exact ih _ g h2
    · split
      · exact ih _ g h2
      · split
        · exact ih _ g h2
        · rename_i hclear
          exact paintSecret_keeps_floor g _ rect eFh
            (clearanceOk_pair_of_mem _ _ _ he hclear) fx hcx h2

theorem secretTry_frame (s : RandStream) (fhs : List Foothold) (rect : RefineRect)
    (base : Foothold) (cx cy : Int)
    (hout : ¬(rect.x ≤ cx ∧ cx ≤ rect.rightCol ∧ rect.y ≤ cy ∧ cy ≤ rect.bottom)) :
    ∀ (fuel i : Nat) (g : SemanticGrid32),
      (secretTry s fhs rect base g i fuel).1.get cx cy = g.get cx cy := by
  intro fuel
  induction fuel with
  | zero => intro i g; rfl
  | succ fuel ih =>
    intro i g
    simp only [secretTry]
    split
    · exact ih _ g
    · split
      · exact ih _ g
      · split
        · exact ih _ g
        · exact paintSecret_frame g _ rect cx cy hout

theorem addSecret_keeps_feet (s : RandStream) (i : Nat) (g : SemanticGrid32)
    (fhs : List Foothold) (rect : RefineRect) (eFh : Foothold) (he : eFh ∈ fhs)
    (fx : Int) (hcx : fx ∈ eFh.xCols) (h1 : g.get fx eFh.y &&& 1 = 0) :
    (addSecret s i g fhs rect).1.get fx eFh.y &&& 1 = 0 := by
  unfold addSecret
  match fhs, he with
  | a :: l, he => exact secretTry_keeps_feet s (a :: l) rect _ eFh he fx hcx 20 _ g h1

theorem addSecret_keeps_floor (s : RandStream) (i : Nat) (g : SemanticGrid32)
    (fhs : List Foothold) (rect : RefineRect) (eFh : Foothold) (he : eFh ∈ fhs)
    (fx : Int) (hcx : fx ∈ eFh.xCols) (h2 : g.get fx eFh.surfaceY &&& 1 ≠ 0) :
    (addSecret s i g fhs rect).1.get fx eFh.surfaceY &&& 1 ≠ 0 := by
  unfold addSecret
  match fhs, he with
  | a :: l, he => exact secretTry_keeps_floor s (a :: l) rect _ eFh he fx hcx 20 _ g h2

theorem addSecret_frame (s : RandStream) (i : Nat) (g : SemanticGrid32)
    (fhs : List Foothold) (rect : RefineRect) (cx cy : Int)
    (hout : ¬(rect.x ≤ cx ∧ cx ≤ rect.rightCol ∧ rect.y ≤ cy ∧ cy ≤ rect.bottom)) :
    (addSecret s i g fhs rect).1.get cx cy = g.get cx cy := by
  unfold addSecret
  match fhs with
  | [] => rfl
  | a :: l => exact secretTry_frame s (a :: l) rect _ cx cy hout 20 _ g

theorem smoothStep_keeps_free (rect : RefineRect) (g : SemanticGrid32) (fx cx cy : Int)
    (h : g.get cx cy &&& 1 = 0) : (smoothStep rect g fx).get cx cy &&& 1 = 0 := by
  simp only [smoothStep]
  split
  · exact h
  · split
    · exact SemanticGrid32.removeFlags_keeps_free _ _ _ _ _ _ h
    · exact h

theorem smoothStep_row_ne (rect : RefineRect) (g : SemanticGrid32) (fx cx cy : Int)
    (hne : ¬(cx = fx ∧ cy = rect.y)) :
    (smoothStep rect g fx).get cx cy = g.get cx cy := by
  simp only [smoothStep]
  split
  · rfl
  · split
    · exact SemanticGrid32.get_removeFlags_other _ _ _ _ _ _ hne
    · rfl

theorem smooth_keeps_free (g : SemanticGrid32) (rect : RefineRect) (cx cy : Int)
    (h : g.get cx cy &&& 1 = 0) :
    (smoothSilhouette g rect).get cx cy &&& 1 = 0 := by
  unfold smoothSilhouette
  exact foldl_preserve (fun g2 : SemanticGrid32 => g2.get cx cy &&& 1 = 0) _
    (fun g2 fx h2 => smoothStep_keeps_free rect g2 fx cx cy h2) _ g h

theorem smooth_row_ne (g : SemanticGrid32) (rect : RefineRect) (cx cy : Int)
    (hne : cy ≠ rect.y) :
    (smoothSilhouette g rect).get cx cy = g.get cx cy := by
  unfold smoothSilhouette
  refine foldl_get_eq_mem _ cx cy _ (fun g2 fx _ => ?_) g
  exact smoothStep_row_ne rect g2 fx cx cy (by rintro ⟨_, h2⟩; exact hne h2)

theorem smooth_frame (g : SemanticGrid32) (rect : RefineRect) (cx cy : Int)
    (hyb : rect.y ≤ rect.bottom)
    (hout : ¬(rect.x ≤ cx ∧ cx ≤ rect.rightCol ∧ rect.y ≤ cy ∧ cy ≤ rect.bottom)) :
    (smoothSilhouette g rect).get cx cy = g.get cx cy := by
  unfold smoothSilhouette
  refine foldl_get_eq_mem _ cx cy _ (fun g2 fx hfx => ?_) g
  have hb := mem_intRange hfx
  refine smoothStep_row_ne rect g2 fx cx cy ?_
  rintro ⟨rfl, rfl⟩
  exact hout ⟨hb.1, by omega, le_refl _, hyb⟩

theorem setStageHead_frame (g2 : SemanticGrid32) (fhs : List Foothold) (b : Bool)
    (flag : Nat) (cx cy : Int)
    (hok : b = true → ∀ fh ∈ fhs, ¬(cx = fh.x + Int.fdiv fh.width 2 ∧ cy = fh.y)) :
    (if b = true then
      match fhs.head? with
      | some fh => g2.set (fh.x + Int.fdiv fh.width 2) fh.y flag
      | none => g2
     else g2).get cx cy = g2.get cx cy := by
  split
  · rename_i hb
    cases hh : fhs.head? with
    | none => rfl
    | some fh =>
      exact SemanticGrid32.get_set_other _ _ _ _ _ _
        (hok hb fh (List.mem_of_mem_head? hh))
  · rfl

theorem setStageLast_frame (g2 : SemanticGrid32) (fhs : List Foothold) (b : Bool)
    (flag : Nat) (cx cy : Int)
    (hok : b = true → ∀ fh ∈ fhs, ¬(cx = fh.x + Int.fdiv fh.width 2 ∧ cy = fh.y)) :
    (if b = true then
      match fhs.getLast? with
      | some fh => g2.set (fh.x + Int.fdiv fh.width 2) fh.y flag
      | none => g2
     else g2).get cx cy = g2.get cx cy := by
  split
  · rename_i hb
    cases hh : fhs.getLast? with
    | none => rfl
    | some fh =>
      exact SemanticGrid32.get_set_other _ _ _ _ _ _
        (hok hb fh (List.mem_of_mem_getLast? hh))
  · rfl

theorem refineAttempt_frame (g : SemanticGrid32) (rect : RefineRect)
    (request : RefineRequest) (s : RandStream) (fhs : List Foothold) (j : Nat)
    (si gi : Bool) (cx cy : Int)
    (hyb : rect.y ≤ rect.bottom)
    (hout : ¬(rect.x ≤ cx ∧ cx ≤ rect.rightCol ∧ rect.y ≤ cy ∧ cy ≤ rect.bottom))
    (hcent : (si = true ∨ gi = true) → ∀ fh ∈ fhs,
      rect.x ≤ fh.x + Int.fdiv fh.width 2 ∧ fh.x + Int.fdiv fh.width 2 ≤ rect.rightCol ∧
      rect.y ≤ fh.y ∧ fh.y ≤ rect.bottom) :
    (refineAttemptGrid g rect request s fhs j si gi).get cx cy = g.get cx cy := by
  have hok : ∀ b : Bool, b = true → (si = true ∨ gi = true) → ∀ fh ∈ fhs,
      ¬(cx = fh.x + Int.fdiv fh.width 2 ∧ cy = fh.y) := by
    rintro b hb hor fh hfh ⟨rfl, rfl⟩
    have hbx := hcent hor fh hfh
    exact hout ⟨hbx.1, hbx.2.1, hbx.2.2.1, hbx.2.2.2⟩
  simp only [refineAttemptGrid]
  split
  all_goals try rw [smooth_frame _ _ _ _ hyb hout]
  all_goals split
  all_goals try rw [addSecret_frame _ _ _ _ _ _ _ hout]
  all_goals try dsimp only
  all_goals rw [setStageLast_frame _ _ _ _ _ _ (fun hb => hok gi hb (Or.inr hb)),
    setStageHead_frame _ _ _ _ _ _ (fun hb => hok si hb (Or.inl hb)),
    paint_frame _ _ _ _ _ hout, clearRect_get_outside _ _ _ _ hout]
  all_goals rfl

theorem refineAttempt_entry_feet (g : SemanticGrid32) (rect : RefineRect)
    (request : RefineRequest) (s : RandStream) (knobs : GeneratorKnobs)
    (spec : MovementSpec) (entry exitP : Pos) (i0 i j : Nat) (fhs : List Foothold)
    (si gi : Bool)
    (hgen : genInner s knobs spec rect entry exitP i0 = some (fhs, i))
    (hmw : 1 ≤ knobs.min_foothold_width)
    (he1 : rect.x ≤ entry.1) (he2 : entry.1 ≤ rect.rightCol)
    (he3 : rect.y ≤ entry.2) (he4 : entry.2 ≤ rect.bottom) :
    (refineAttemptGrid g rect request s fhs j si gi).get entry.1 entry.2 &&& 1 = 0 := by
  obtain ⟨eFh, xFh, body, hfhs, hex, hey, ⟨re, hew⟩, hxy, hxx, ⟨rx, hxw⟩, hbody, hpairX, hdx⟩ :=
    genInner_some s knobs spec rect entry exitP i0 fhs i hgen
  have hew1 : 1 ≤ eFh.width := by rw [hew]; omega
  have hcx : eFh.x ∈ eFh.xCols := by
    refine intRange_mem ?_ ?_ <;> omega
  have hmem : eFh ∈ fhs := by rw [hfhs]; exact List.mem_cons_self _ _
  have hhead : fhs.head? = some eFh := by rw [hfhs]; rfl
  have hlast : fhs.getLast? = some xFh := by
    rw [hfhs]
    show ((eFh :: body) ++ [xFh]).getLast? = some xFh
    rw [List.getLast?_concat]
  have hnosurf : ∀ fh ∈ fhs, ¬(eFh.y = fh.surfaceY ∧ eFh.x ∈ fh.xCols) := by
    rintro fh hfh ⟨hr, hcmem⟩
    have hself : ¬(eFh.y = eFh.surfaceY) := by
      unfold Foothold.surfaceY
      omega
    have hpairCase : ∀ q : Foothold, clearanceOkPair eFh q = true →
        eFh.y = q.surfaceY → eFh.x ∈ q.xCols → False := by
      intro q hq hr2 hc2
      have hbd := (pair_bands eFh q hq eFh.x hc2 hcx).1
      unfold Foothold.clearLo Foothold.clearHi PLAYER_HEIGHT at hbd
      exact hbd ⟨by omega, by omega⟩
    rw [hfhs] at hfh
    rcases List.mem_cons.mp hfh with rfl | hfh2
    · exact hself hr
    · rcases List.mem_append.mp hfh2 with hb | hxl
      · rcases hbody fh hb with rfl | hok
        · exact hself hr
        · exact hpairCase fh hok.2.2.2.2.2 hr hcmem
      · rw [List.mem_singleton] at hxl
        subst hxl
        exact hpairCase _ hpairX hr hcmem
  have hbase : (paintInnerFootholds (clearRect g.copy rect) fhs rect).get eFh.x eFh.y
      &&& 1 = 0 := by
    refine paint_keeps_free _ _ _ _ _ hnosurf ?_
    rw [clearRect_get_inside _ _ _ _ (by omega) (by omega) (by omega) (by omega)]
    decide
  rw [← hex, ← hey]
  simp only [refineAttemptGrid, hhead, hlast]
  split
  all_goals try refine smooth_keeps_free _ _ _ _ ?_
  all_goals split
  all_goals try refine addSecret_keeps_feet _ _ _ _ _ eFh hmem eFh.x hcx ?_
  all_goals try dsimp only
  all_goals split
  all_goals try refine SemanticGrid32.set_keeps_free _ _ _ _ (by decide) _ _ ?_
  all_goals split
  all_goals try refine SemanticGrid32.set_keeps_free _ _ _ _ (by decide) _ _ ?_
  all_goals exact hbase

theorem refineAttempt_entry_floor (g : SemanticGrid32) (rect : RefineRect)
    (request : RefineRequest) (s : RandStream) (knobs : GeneratorKnobs)
    (spec : MovementSpec) (entry exitP : Pos) (i0 i j : Nat) (fhs : List Foothold)
    (si gi : Bool)
    (hgen : genInner s knobs spec rect entry exitP i0 = some (fhs, i))
    (hmw : 1 ≤ knobs.min_foothold_width)
    (he1 : rect.x ≤ entry.1) (he2 : entry.1 ≤ rect.rightCol)
    (he3 : rect.y ≤ entry.2) (he4 : entry.2 ≤ rect.bottom)
    (hfloor : entry.2 + 1 ≤ rect.bottom) :
    (refineAttemptGrid g rect request s fhs j si gi).get entry.1 (entry.2 + 1)
      &&& 1 ≠ 0 := by
  obtain ⟨eFh, xFh, body, hfhs, hex, hey, ⟨re, hew⟩, hxy, hxx, ⟨rx, hxw⟩, hbody, hpairX, hdx⟩ :=
    genInner_some s knobs spec rect entry exitP i0 fhs i hgen
  have hew1 : 1 ≤ eFh.width := by rw [hew]; omega
  have hxw1 : 1 ≤ xFh.width := by rw [hxw]; omega
  have hcx : eFh.x ∈ eFh.xCols := by
    refine intRange_mem ?_ ?_ <;> omega
  have hmem : eFh ∈ fhs := by rw [hfhs]; exact List.mem_cons_self _ _
  have hhead : fhs.head? = some eFh := by rw [hfhs]; rfl
  have hlast : fhs.getLast? = some xFh := by
    rw [hfhs]
    show ((eFh :: body) ++ [xFh]).getLast? = some xFh
    rw [List.getLast?_concat]
  have hsy : eFh.surfaceY = entry.2 + 1 := by
    unfold Foothold.surfaceY
    omega
  have hrowne : eFh.surfaceY ≠ rect.y := by omega
  have hgoalne : ¬(eFh.x = xFh.x + Int.fdiv xFh.width 2 ∧ eFh.surfaceY = xFh.y) := by
    rintro ⟨h1, h2⟩
    have hb := fdiv_two_bounds xFh.width hxw1
    have hgxmem : eFh.x ∈ xFh.xCols := by
      refine intRange_mem ?_ ?_ <;> omega
    have hbd := (pair_bands eFh xFh hpairX eFh.x hgxmem hcx).2
    unfold Foothold.clearLo Foothold.clearHi PLAYER_HEIGHT at hbd
    exact hbd ⟨by omega, by omega⟩
  have hstartne : ¬(eFh.x = eFh.x + Int.fdiv eFh.width 2 ∧ eFh.surfaceY = eFh.y) := by
    rintro ⟨_, h2⟩
    omega
  have hbase : (paintInnerFootholds (clearRect g.copy rect) fhs rect).get eFh.x eFh.surfaceY
      &&& 1 ≠ 0 := by
    rw [hfhs]
    exact paint_floor_solid _ eFh (body ++ [xFh]) rect eFh.x eFh.surfaceY hcx rfl
      (by omega) (by omega) (by omega) (by omega)
  rw [← hex, ← hsy]
  simp only [refineAttemptGrid, hhead, hlast]
  split
  all_goals try rw [smooth_row_ne _ _ _ _ hrowne]
  all_goals split
  all_goals try refine addSecret_keeps_floor _ _ _ _ _ eFh hmem eFh.x hcx ?_
  all_goals try dsimp only
  all_goals split
  all_goals try rw [SemanticGrid32.get_set_other _ _ _ _ _ _ hgoalne]
  all_goals split
  all_goals try rw [SemanticGrid32.get_set_other _ _ _ _ _ _ hstartne]
  all_goals exact hbase

theorem mask3_of_mask1 (v : Nat) (h : v &&& 1 ≠ 0) : v &&& 3 ≠ 0 := by
  intro hc
  apply h
  have h2 := and_sub_mask v 0 3 1 (by decide) (by rw [hc]; decide)
  rw [h2]
  decide

theorem validAt_parts (cfg : PlayerConfig) (g : SemanticGrid32) (x y : Int)
    (h : validAt cfg g x y = true) :
    g.get x (y + 1) &&& (Cell.SOLID ||| Cell.ONEWAY) ≠ 0 ∧
    g.get x y &&& (Cell.SOLID ||| Cell.HAZARD) = 0 := by
  unfold validAt at h
  rw [Bool.and_eq_true] at h
  have hst := h.1
  unfold standableMask at hst
  split at hst
  · rename_i hc
    exact ⟨hc.2.2.2.2.1, hc.2.2.2.2.2⟩
  · exact absurd hst (by simp)

theorem genInner_centers (s : RandStream) (knobs : GeneratorKnobs) (spec : MovementSpec)
    (rect : RefineRect) (entry exitP : Pos) (i0 i : Nat) (fhs : List Foothold)
    (hgen : genInner s knobs spec rect entry exitP i0 = some (fhs, i))
    (hmw : 1 ≤ knobs.min_foothold_width)
    (he1 : rect.x ≤ entry.1) (he2 : entry.1 ≤ rect.rightCol)
    (he3 : rect.y ≤ entry.2) (he4 : entry.2 ≤ rect.bottom)
    (hx1 : rect.x ≤ exitP.1) (hx2 : exitP.1 ≤ rect.rightCol)
    (hx3 : rect.y ≤ exitP.2) (hx4 : exitP.2 ≤ rect.bottom) :
    ∀ fh ∈ fhs,
      rect.x ≤ fh.x + Int.fdiv fh.width 2 ∧ fh.x + Int.fdiv fh.width 2 ≤ rect.rightCol ∧
      rect.y ≤ fh.y ∧ fh.y ≤ rect.bottom := by
  obtain ⟨eFh, xFh, body, hfhs, hex, hey, ⟨re, hew⟩, hxy, hxx, ⟨rx, hxw⟩, hbody, hpairX, hdx⟩ :=
    genInner_some s knobs spec rect entry exitP i0 fhs i hgen
  have heC : rect.x ≤ eFh.x + Int.fdiv eFh.width 2 ∧
      eFh.x + Int.fdiv eFh.width 2 ≤ rect.rightCol ∧
      rect.y ≤ eFh.y ∧ eFh.y ≤ rect.bottom := by
    have hew1 : 1 ≤ eFh.width := by rw [hew]; omega
    have hb := fdiv_two_bounds eFh.width hew1
    have hwle : eFh.width ≤ rect.rightCol - entry.1 + 1 := by rw [hew]; omega
    exact ⟨by omega, by omega, by omega, by omega⟩
  intro fh hfh
  rw [hfhs] at hfh
  rcases List.mem_cons.mp hfh with rfl | hfh2
  · exact heC
  · rcases List.mem_append.mp hfh2 with hb | hxl
    · rcases hbody fh hb with rfl | hok
      · exact heC
      · obtain ⟨hb1, hb2, hb3, hb4, hb5, _⟩ := hok
        have hbd := fdiv_two_bounds fh.width (by omega)
        unfold PLAYER_HEIGHT at hb3
        exact ⟨by omega, by omega, by omega, by omega⟩
    · rw [List.mem_singleton] at hxl
      subst hxl
      have hxw1 : 1 ≤ fh.width := by rw [hxw]; omega
      have hbd := fdiv_two_bounds fh.width hxw1
      have hwle : fh.width ≤ exitP.1 - rect.x + 1 := by rw [hxw]; omega
      exact ⟨by omega, by omega, by omega, by omega⟩

theorem startInside_nondeg (g : SemanticGrid32) (rect : RefineRect)
    (h : startInside g rect = true) : rect.x ≤ rect.rightCol ∧ rect.y ≤ rect.bottom := by
  unfold startInside at h
  cases hf : findFlag g Cell.START with
  | none => rw [hf] at h; cases h
  | some p =>
    rw [hf] at h
    unfold RefineRect.containsB at h
    simp only [Bool.and_eq_true, decide_eq_true_eq] at h
    omega

theorem goalInside_nondeg (g : SemanticGrid32) (rect : RefineRect)
    (h : goalInside g rect = true) : rect.x ≤ rect.rightCol ∧ rect.y ≤ rect.bottom := by
  unfold goalInside at h
  cases hf : findFlag g Cell.GOAL with
  | none => rw [hf] at h; cases h
  | some p =>
    rw [hf] at h
    unfold RefineRect.containsB at h
    simp only [Bool.and_eq_true, decide_eq_true_eq] at h
    omega

/-! ## Claims C2 and C5 -/

/-- C2 counterexample: with negative foothold widths (accepted by the
dataclass) a successful `refine_region` writes the START marker at
`entry.x + width // 2` = one column LEFT of the rect, so a cell outside
the rect differs from the original.  Refutes the unconditional claim. -/
theorem C2_counterexample :
    (9 : Int) < rect2.x ∧
    (refine_region streamZero gridS2 rect2 {} 0 knobs2 spec1).2.success = true ∧
    (refine_region streamZero gridS2 rect2 {} 0 knobs2 spec1).1.get 9 11 ≠
      gridS2.get 9 11 := by
  refine ⟨by decide, ?_, ?_⟩ <;> decide

/-- C2 (amended): when the knobs keep `min_foothold_width ≥ 1` (so all
painted footholds and the re-placed START/GOAL centres stay inside the
rect) and the rect has positive height (so the silhouette pass stays
inside it), a successful `refine_region` preserves every cell outside the
rect byte-exactly. -/
theorem C2_outside_rect_preserved (R : RandFamily) (g : SemanticGrid32) (rect : RefineRect)
    (request : RefineRequest) (seed : Int) (knobs : GeneratorKnobs) (spec : MovementSpec)
    (gout : SemanticGrid32) (rep : RefineReport)
    (h : refine_region R g rect request seed knobs spec = (gout, rep))
    (hs : rep.success = true)
    (hmw : 1 ≤ knobs.min_foothold_width)
    (hh : 1 ≤ rect.h)
    (cx cy : Int)
    (hout : cx < rect.x ∨ rect.rightCol < cx ∨ cy < rect.y ∨ rect.bottom < cy) :
    gout.get cx cy = g.get cx cy := by
  obtain ⟨seamE, seamX, s, fhs, i, hfs, hgen, hse, hsx, hgrid⟩ :=
    refine_success_inv R g rect request seed knobs spec gout rep h hs
  have hyb : rect.y ≤ rect.bottom := by
    unfold RefineRect.bottom
    omega
  rw [hgrid]
  refine refineAttempt_frame g rect request s fhs i _ _ cx cy hyb ?_ ?_
  · rintro ⟨h1, h2, h3, h4⟩
    omega
  · intro hor
    have hnd : rect.x ≤ rect.rightCol ∧ rect.y ≤ rect.bottom := by
      rcases hor with h1 | h1
      · exact startInside_nondeg g rect h1
      · exact goalInside_nondeg g rect h1
    obtain ⟨_, hbox⟩ := findSeams_props g rect (cfgOfSpec spec) spec seamE seamX hfs
    obtain ⟨hbE, hbX⟩ := hbox hnd.1 hnd.2
    have hmw2 : 1 ≤ (applyDeltas knobs request).min_foothold_width := hmw
    exact genInner_centers s (applyDeltas knobs request) spec rect seamE seamX 0 i fhs hgen
      hmw2 hbE.1 hbE.2.1 hbE.2.2.1 hbE.2.2.2 hbX.1 hbX.2.1 hbX.2.2.1 hbX.2.2.2

/-- The S1 refinement succeeds (proved once; shared by the C2 witness and
the C5 scenario facts). -/
theorem refineS1_success :
    (refine_region streamZero gridS1 rect1 {} 0 {} spec1).2.success = true := by
  decide

/-- C2 witness: at scenario S1 (default knobs, width ≥ 1, rect of height
5) the cell (0, 0), far outside the rect, is preserved. -/
theorem C2_witness :
    (refine_region streamZero gridS1 rect1 {} 0 {} spec1).1.get 0 0 = gridS1.get 0 0 :=
  C2_outside_rect_preserved streamZero gridS1 rect1 {} 0 {} spec1 _ _ rfl
    refineS1_success (by decide) (by decide) 0 0 (by decide)

/-- The S1 entry seam is the bottom-row boundary cell (10, 11). -/
theorem refineS1_seam :
    (refine_region streamZero gridS1 rect1 {} 0 {} spec1).2.seam_entry
      = some ((10, 11) : Pos) := by
  decide

/-- The floor under the S1 entry seam carries no SOLID bit in the refined
grid (it is the original ONEWAY walkway, outside the rect). -/
theorem refineS1_floor :
    (refine_region streamZero gridS1 rect1 {} 0 {} spec1).1.get 10 12 &&& Cell.SOLID
      = 0 := by
  decide

/-- C5 counterexample: a successful refinement whose reported seam_entry
is (10, 11) while the refined floor cell (10, 12) contains no SOLID flag -
the seam sits on the rect's bottom row and stands on the original ONEWAY
walkway below the rect, so the claim's `floor contains SOLID` is false. -/
theorem C5_counterexample :
    (refine_region streamZero gridS1 rect1 {} 0 {} spec1).2.success = true ∧
    (refine_region streamZero gridS1 rect1 {} 0 {} spec1).2.seam_entry
      = some ((10, 11) : Pos) ∧
    (refine_region streamZero gridS1 rect1 {} 0 {} spec1).1.get 10 12 &&& Cell.SOLID
      = 0 :=
  ⟨refineS1_success, refineS1_seam, refineS1_floor⟩

/-- C5 (amended): for a successful `refine_region` with
`min_foothold_width ≥ 1` and a nondegenerate rect, the reported seam_entry
stays standable in the returned grid: its feet cell is SOLID-free and its
floor cell carries SOLID or ONEWAY.  (The floor is freshly painted SOLID
when it lies inside the rect; when the seam sits on the rect's bottom row
the floor is the untouched original cell, which is standable but may be
ONEWAY rather than SOLID.) -/
theorem C5_seam_entry_standable (R : RandFamily) (g : SemanticGrid32) (rect : RefineRect)
    (request : RefineRequest) (seed : Int) (knobs : GeneratorKnobs) (spec : MovementSpec)
    (gout : SemanticGrid32) (rep : RefineReport)
    (h : refine_region R g rect request seed knobs spec = (gout, rep))
    (hs : rep.success = true)
    (hmw : 1 ≤ knobs.min_foothold_width)
    (hw : 1 ≤ rect.w) (hh : 1 ≤ rect.h)
    (p : Pos) (hp : rep.seam_entry = some p) :
    gout.get p.1 p.2 &&& Cell.SOLID = 0 ∧
    gout.get p.1 (p.2 + 1) &&& (Cell.SOLID ||| Cell.ONEWAY) ≠ 0 := by
  obtain ⟨seamE, seamX, s, fhs, i, hfs, hgen, hse, hsx, hgrid⟩ :=
    refine_success_inv R g rect request seed knobs spec gout rep h hs
  have hpe : seamE = p := by
    rw [hp] at hse
    exact (Option.some.inj hse).symm
  subst hpe
  have hndx : rect.x ≤ rect.rightCol := by
    unfold RefineRect.rightCol
    omega
  have hndy : rect.y ≤ rect.bottom := by
    unfold RefineRect.bottom
    omega
  obtain ⟨⟨hvE, _⟩, hbox⟩ := findSeams_props g rect (cfgOfSpec spec) spec seamE seamX hfs
  obtain ⟨hbE, hbX⟩ := hbox hndx hndy
  have hmw2 : 1 ≤ (applyDeltas knobs request).min_foothold_width := hmw
  rw [hgrid]
  constructor
  · exact refineAttempt_entry_feet g rect request s (applyDeltas knobs request) spec
      seamE seamX 0 i i fhs _ _ hgen hmw2 hbE.1 hbE.2.1 hbE.2.2.1 hbE.2.2.2
  · by_cases hfl : seamE.2 + 1 ≤ rect.bottom
    · exact mask3_of_mask1 _ (refineAttempt_entry_floor g rect request s
        (applyDeltas knobs request) spec seamE seamX 0 i i fhs _ _ hgen hmw2
        hbE.1 hbE.2.1 hbE.2.2.1 hbE.2.2.2 hfl)
    · have hout : ¬(rect.x ≤ seamE.1 ∧ seamE.1 ≤ rect.rightCol ∧ rect.y ≤ seamE.2 + 1 ∧
          seamE.2 + 1 ≤ rect.bottom) := by
        rintro ⟨_, _, _, h4⟩
        exact hfl h4
      rw [refineAttempt_frame g rect request s fhs i _ _ seamE.1 (seamE.2 + 1) hndy hout
        (fun _ => genInner_centers s (applyDeltas knobs request) spec rect seamE seamX 0 i
          fhs hgen hmw2 hbE.1 hbE.2.1 hbE.2.2.1 hbE.2.2.2 hbX.1 hbX.2.1 hbX.2.2.1
          hbX.2.2.2)]
      exact (validAt_parts (cfgOfSpec spec) g seamE.1 seamE.2 hvE).1

/-- C5 witness: the amended statement at scenario S1: the seam (10, 11)
keeps SOLID-free feet and a standable (here ONEWAY) floor. -/
theorem C5_witness :
    (refine_region streamZero gridS1 rect1 {} 0 {} spec1).1.get 10 11 &&& Cell.SOLID
      = 0 ∧
    (refine_region streamZero gridS1 rect1 {} 0 {} spec1).1.get 10 12
      &&& (Cell.SOLID ||| Cell.ONEWAY) ≠ 0 :=
  C5_seam_entry_standable streamZero gridS1 rect1 {} 0 {} spec1 _ _ rfl
    refineS1_success (by decide) (by decide) (by decide) ((10, 11) : Pos) refineS1_seam
